import Mathlib

/-!
# Verification of the Yatay language core

A shallow embedding of the Yatay scanner, parser, interpreter, lexical
environment and command-line diagnostics sink, translated from the
TypeScript sources (`yatay-scanner.ts`, `yatay-parser.ts`,
`yatay-interpreter.ts`, `yatay-environment.ts`, `yatay-token.ts`,
`yatay-cli.ts`), together with theorems settling the behavioral claims
about them.

Modelling conventions:
* JavaScript `number` values are modelled by `JsNumber`: either `nan` or a
  finite value carried as an exact rational.  Floating-point rounding and
  the infinities are abstracted away; every computation the claims exercise
  stays within the exactly representable range, where double arithmetic is
  exact.
* JavaScript `null` (the language-level "absent" value) is the
  `YatayValue.vNull` variant.
* Thrown exceptions (`YatayRuntimeError`, `YatayParseError`) become
  `Except` / explicit error results.
* The diagnostics sink (`YatayCli`) becomes an explicit state record; its
  `console.error` output is modelled as a list of lines.
* The unbounded `while` loops of the scanner and the parser, and the
  parser's recursive descent, are modelled with an explicit fuel parameter
  (structural recursion on the fuel); a fuel-sufficiency theorem shows the
  chosen fuel is never exhausted, which is the termination statement.
-/

/-! ## JavaScript numbers -/

/-- A JavaScript `number` as far as the Yatay core exercises it: either
`NaN` or a finite value, modelled as an exact rational.  (The infinities
and double-precision rounding are abstracted away.) -/
inductive JsNumber where
  | nan : JsNumber
  | fin (q : ℚ) : JsNumber
deriving DecidableEq, Repr

/-- Truncation of a rational toward zero, the rounding JavaScript's `%`
uses for its implicit division (`Int` division in Lean truncates toward
zero). -/
def ratTrunc (q : ℚ) : ℤ :=
  q.num / (q.den : ℤ)

/-- JavaScript unary negation on numbers. -/
def JsNumber.neg : JsNumber → JsNumber
  | .nan => .nan
  | .fin q => .fin (-q)

/-- JavaScript `+` on two numbers (`NaN` propagates). -/
def JsNumber.add : JsNumber → JsNumber → JsNumber
  | .fin a, .fin b => .fin (a + b)
  | _, _ => .nan

/-- JavaScript `-` on two numbers (`NaN` propagates). -/
def JsNumber.sub : JsNumber → JsNumber → JsNumber
  | .fin a, .fin b => .fin (a - b)
  | _, _ => .nan

/-- JavaScript `*` on two numbers (`NaN` propagates). -/
def JsNumber.mul : JsNumber → JsNumber → JsNumber
  | .fin a, .fin b => .fin (a * b)
  | _, _ => .nan

/-- JavaScript `/` on two numbers (`NaN` propagates).  Division by zero
yields `nan` in the model; the interpreter's `/` case checks the divisor
before dividing, so that branch is unreachable from Yatay programs. -/
def JsNumber.div : JsNumber → JsNumber → JsNumber
  | .fin a, .fin b => if b = 0 then .nan else .fin (a / b)
  | _, _ => .nan

/-- JavaScript `%` on two numbers: the remainder of truncating division,
with the dividend's sign; `x % 0` is `NaN`, and `NaN` propagates. -/
def JsNumber.rem : JsNumber → JsNumber → JsNumber
  | .fin a, .fin b => if b = 0 then .nan else .fin (a - b * (ratTrunc (a / b) : ℚ))
  | _, _ => .nan

/-- JavaScript `<` on two numbers (`false` whenever `NaN` is involved). -/
def JsNumber.ltb : JsNumber → JsNumber → Bool
  | .fin a, .fin b => decide (a < b)
  | _, _ => false

/-- JavaScript `<=` on two numbers (`false` whenever `NaN` is involved). -/
def JsNumber.leb : JsNumber → JsNumber → Bool
  | .fin a, .fin b => decide (a ≤ b)
  | _, _ => false

/-- JavaScript `>` on two numbers (`false` whenever `NaN` is involved). -/
def JsNumber.gtb : JsNumber → JsNumber → Bool
  | .fin a, .fin b => decide (b < a)
  | _, _ => false

/-- JavaScript `>=` on two numbers (`false` whenever `NaN` is involved). -/
def JsNumber.geb : JsNumber → JsNumber → Bool
  | .fin a, .fin b => decide (b ≤ a)
  | _, _ => false

/-- JavaScript `===` on two numbers: `NaN` is equal to nothing, including
itself. -/
def JsNumber.strictEq : JsNumber → JsNumber → Bool
  | .fin a, .fin b => decide (a = b)
  | _, _ => false

/-! ## Tokens (`yatay-token.ts`) -/

/-- Enumeration of all the kinds of Yatay lexical tokens
(`YatayTokenKind` in `yatay-token.ts`). -/
inductive YatayTokenKind where
  | openingParenthesis
  | closingParenthesis
  | openingSquareBracket
  | closingSquareBracket
  | openingCurlyBrace
  | closingCurlyBrace
  | dot
  | comma
  | colon
  | semicolon
  | assign
  | plus
  | minus
  | asterisk
  | slash
  | doubleSlash
  | equal
  | unequal
  | less
  | lessOrEqual
  | greater
  | greaterOrEqual
  | hash
  | identifier
  | string
  | number
  | keywordY
  | keywordO
  | keywordNo
  | keywordDefinir
  | keywordClase
  | keywordInstancia
  | keywordBase
  | keywordVerdadero
  | keywordFalso
  | keywordSi
  | keywordSino
  | keywordRepetir
  | keywordMientras
  | keywordDevolver
  | endOfFile
deriving DecidableEq, Repr

/-- The literal value a token carries: `null`, a text, or a number
(the TypeScript field has type `string | number | null`). -/
inductive YatayLiteral where
  | nullLiteral
  | strLiteral (s : String)
  | numLiteral (q : ℚ)
deriving DecidableEq, Repr

/-- A lexical token scanned from a Yatay source file (`YatayToken`). -/
structure YatayToken where
  kind : YatayTokenKind
  lexeme : String
  literal : YatayLiteral
  line : Nat
deriving DecidableEq, Repr

/-! ## Run-time values -/

/-- The dynamic value domain of the interpreter: `null` (absent), a
boolean, a number, or a text. -/
inductive YatayValue where
  | vNull
  | vBool (b : Bool)
  | vNumber (n : JsNumber)
  | vStr (s : String)
deriving DecidableEq, Repr

/-- JavaScript's `Boolean(...)` coercion on the values the interpreter can
produce: `null`, `0`, `NaN` and the empty string are falsy; everything
else is truthy. -/
def jsBoolean : YatayValue → Bool
  | .vNull => false
  | .vBool b => b
  | .vNumber .nan => false
  | .vNumber (.fin q) => decide (q ≠ 0)
  | .vStr s => decide (s ≠ "")

/-- `YatayInterpreter.areEqual`: JavaScript `===` on two values (no
coercion; cross-variant comparisons are `false`; `NaN === NaN` is
`false`). -/
def areEqual : YatayValue → YatayValue → Bool
  | .vNull, .vNull => true
  | .vBool a, .vBool b => decide (a = b)
  | .vNumber a, .vNumber b => a.strictEq b
  | .vStr a, .vStr b => decide (a = b)
  | _, _ => false

/-- A thrown `YatayRuntimeError`: the offending token and the message. -/
structure YatayRuntimeError where
  token : YatayToken
  message : String
deriving DecidableEq, Repr

/-! ## The environment (`yatay-environment.ts`) -/

/-- `YatayEnvironment`: the flat mapping from identifier lexemes to
values.  The `Map<string, unknown>` is modelled as an association list
with at most one entry per key. -/
structure YatayEnvironment where
  bindings : List (String × YatayValue)
deriving DecidableEq, Repr

/-- The "identifier not defined in this context" message of
`assertIdentifierIsDefined`. -/
def notDefinedMessage (lexeme : String) : String :=
  "El identificador \"" ++ lexeme ++ "\" no se encuentra definido en este contexto."

/-- The "identifier already defined in this context" message of
`assertIdentifierIsNotDefined`. -/
def alreadyDefinedMessage (lexeme : String) : String :=
  "El identificador \"" ++ lexeme ++ "\" ya se encuentra definido en este contexto."

/-- `YatayEnvironment.get`: returns the value bound to the identifier's
lexeme, or raises the "not defined" runtime error. -/
def YatayEnvironment.get (env : YatayEnvironment) (identifier : YatayToken) :
    Except YatayRuntimeError YatayValue :=
  match env.bindings.lookup identifier.lexeme with
  | some value => .ok value
  | none => .error ⟨identifier, notDefinedMessage identifier.lexeme⟩

/-- `YatayEnvironment.set`: overwrites the binding for the identifier's
lexeme, or raises the "not defined" runtime error if there is none. -/
def YatayEnvironment.set (env : YatayEnvironment) (identifier : YatayToken)
    (value : YatayValue) : Except YatayRuntimeError YatayEnvironment :=
  match env.bindings.lookup identifier.lexeme with
  | some _ =>
      .ok ⟨env.bindings.map fun p =>
        if p.1 = identifier.lexeme then (p.1, value) else p⟩
  | none => .error ⟨identifier, notDefinedMessage identifier.lexeme⟩

/-- `YatayEnvironment.define`: inserts a binding for the identifier's
lexeme, or raises the "already defined" runtime error if one exists. -/
def YatayEnvironment.define (env : YatayEnvironment) (identifier : YatayToken)
    (value : YatayValue) : Except YatayRuntimeError YatayEnvironment :=
  match env.bindings.lookup identifier.lexeme with
  | some _ => .error ⟨identifier, alreadyDefinedMessage identifier.lexeme⟩
  | none => .ok ⟨env.bindings ++ [(identifier.lexeme, value)]⟩

/-! ## The abstract syntax tree -/

/-- The expression nodes (`YatayLiteralExpression`,
`YatayGroupingExpression`, `YatayUnaryExpression`,
`YatayBinaryExpression`, `YatayVariableAccessExpression`), as one tagged
variant. -/
inductive YatayExpression where
  | literal (value : YatayValue)
  | grouping (innerExpression : YatayExpression)
  | unary (operator : YatayToken) (operand : YatayExpression)
  | binary (leftOperand : YatayExpression) (operator : YatayToken)
      (rightOperand : YatayExpression)
  | variableAccess (name : YatayToken)
deriving DecidableEq, Repr

/-- The statement nodes (`YatayExpressionStatement`,
`YatayVariableDeclarationStatement`). -/
inductive YatayStatement where
  | expressionStatement (expression : YatayExpression)
  | variableDeclaration (name : YatayToken) (initializer : Option YatayExpression)
deriving DecidableEq, Repr

/-! ## The interpreter (`yatay-interpreter.ts`) -/

/-- Message of `assertOperandIsNumber`. -/
def operandNumberMessage : String :=
  "Se esperaba que el operando fuera un número."

/-- Messages of `assertOperandsAreNumbers`. -/
def bothOperandsNumbersMessage : String :=
  "Se esperaba que ambos operandos fueran números."

/-- Message of `assertOperandsAreNumbers` when only the left operand is
not a number. -/
def leftOperandNumberMessage : String :=
  "Se esperaba que el operando izquierdo fuera un número."

/-- Message of `assertOperandsAreNumbers` when only the right operand is
not a number. -/
def rightOperandNumberMessage : String :=
  "Se esperaba que el operando derecho fuera un número."

/-- Message of the `+` case when the operands are neither both numbers
nor both texts. -/
def plusOperandsMessage : String :=
  "Se esperaba que los operandos fueran ambos números o ambos textos."

/-- Message of the `/` case when the divisor is zero. -/
def divisorMessage : String :=
  "Se esperaba que el divisor fuera distinto de cero."

/-- `YatayInterpreter.isNumber`: `typeof value === "number"`. -/
def isNumberValue : YatayValue → Bool
  | .vNumber _ => true
  | _ => false

/-- `YatayInterpreter.isString`: `typeof value === "string"`. -/
def isStringValue : YatayValue → Bool
  | .vStr _ => true
  | _ => false

/-- `YatayInterpreter.assertOperandIsNumber`: throws the runtime error
unless the operand is a number. -/
def assertOperandIsNumber (operand : YatayValue) (operator : YatayToken) :
    Except YatayRuntimeError Unit :=
  if isNumberValue operand then .ok () else .error ⟨operator, operandNumberMessage⟩

/-- `YatayInterpreter.assertOperandsAreNumbers`: throws a runtime error
naming the offending side(s) unless both operands are numbers. -/
def assertOperandsAreNumbers (leftOperand rightOperand : YatayValue)
    (operator : YatayToken) : Except YatayRuntimeError Unit :=
  if !isNumberValue leftOperand then
    if !isNumberValue rightOperand then
      .error ⟨operator, bothOperandsNumbersMessage⟩
    else
      .error ⟨operator, leftOperandNumberMessage⟩
  else if !isNumberValue rightOperand then
    .error ⟨operator, rightOperandNumberMessage⟩
  else
    .ok ()

/-- Dispatch of `visitBinaryExpression` on the operator kind, after both
operands are evaluated.  The fall-through `return null` of the TypeScript
`switch` becomes `.ok .vNull`; inner branches marked unreachable are
guarded by the preceding assertion. -/
def evaluateBinaryOperator (operator : YatayToken)
    (leftOperand rightOperand : YatayValue) :
    Except YatayRuntimeError YatayValue :=
  match operator.kind with
  | .equal => .ok (.vBool (areEqual leftOperand rightOperand))
  | .unequal => .ok (.vBool (!areEqual leftOperand rightOperand))
  | .greater =>
      match assertOperandsAreNumbers leftOperand rightOperand operator with
      | .error e => .error e
      | .ok _ =>
          match leftOperand, rightOperand with
          | .vNumber a, .vNumber b => .ok (.vBool (a.gtb b))
          | _, _ => .ok .vNull
  | .greaterOrEqual =>
      match assertOperandsAreNumbers leftOperand rightOperand operator with
      | .error e => .error e
      | .ok _ =>
          match leftOperand, rightOperand with
          | .vNumber a, .vNumber b => .ok (.vBool (a.geb b))
          | _, _ => .ok .vNull
  | .less =>
      match assertOperandsAreNumbers leftOperand rightOperand operator with
      | .error e => .error e
      | .ok _ =>
          match leftOperand, rightOperand with
          | .vNumber a, .vNumber b => .ok (.vBool (a.ltb b))
          | _, _ => .ok .vNull
  | .lessOrEqual =>
      match assertOperandsAreNumbers leftOperand rightOperand operator with
      | .error e => .error e
      | .ok _ =>
          match leftOperand, rightOperand with
          | .vNumber a, .vNumber b => .ok (.vBool (a.leb b))
          | _, _ => .ok .vNull
  | .plus =>
      match leftOperand, rightOperand with
      | .vNumber a, .vNumber b => .ok (.vNumber (a.add b))
      | .vStr a, .vStr b => .ok (.vStr (a ++ b))
      | _, _ => .error ⟨operator, plusOperandsMessage⟩
  | .minus =>
      match assertOperandsAreNumbers leftOperand rightOperand operator with
      | .error e => .error e
      | .ok _ =>
          match leftOperand, rightOperand with
          | .vNumber a, .vNumber b => .ok (.vNumber (a.sub b))
          | _, _ => .ok .vNull
  | .asterisk =>
      match assertOperandsAreNumbers leftOperand rightOperand operator with
      | .error e => .error e
      | .ok _ =>
          match leftOperand, rightOperand with
          | .vNumber a, .vNumber b => .ok (.vNumber (a.mul b))
          | _, _ => .ok .vNull
  | .slash =>
      match assertOperandsAreNumbers leftOperand rightOperand operator with
      | .error e => .error e
      | .ok _ =>
          if rightOperand = .vNumber (.fin 0) then
            .error ⟨operator, divisorMessage⟩
          else
            match leftOperand, rightOperand with
            | .vNumber a, .vNumber b => .ok (.vNumber (a.div b))
            | _, _ => .ok .vNull
  | .doubleSlash =>
      match assertOperandsAreNumbers leftOperand rightOperand operator with
      | .error e => .error e
      | .ok _ =>
          match leftOperand, rightOperand with
          | .vNumber a, .vNumber b => .ok (.vNumber (a.rem b))
          | _, _ => .ok .vNull
  | _ => .ok .vNull

/-- `YatayInterpreter.evaluateExpression` (the visitor dispatch over
`visitLiteralExpression`, `visitGroupingExpression`,
`visitUnaryExpression`, `visitBinaryExpression`,
`visitVariableAccessExpression`). -/
def evaluateExpression (env : YatayEnvironment) :
    YatayExpression → Except YatayRuntimeError YatayValue
  | .literal value => .ok value
  | .grouping innerExpression => evaluateExpression env innerExpression
  | .variableAccess name => env.get name
  | .unary operator operand =>
      match evaluateExpression env operand with
      | .error e => .error e
      | .ok v =>
          match operator.kind with
          | .keywordNo => .ok (.vBool (!jsBoolean v))
          | .minus =>
              match assertOperandIsNumber v operator with
              | .error e => .error e
              | .ok _ =>
                  match v with
                  | .vNumber n => .ok (.vNumber n.neg)
                  | _ => .ok .vNull
          | _ => .ok .vNull
  | .binary leftOperand operator rightOperand =>
      match evaluateExpression env leftOperand with
      | .error e => .error e
      | .ok l =>
          match evaluateExpression env rightOperand with
          | .error e => .error e
          | .ok r => evaluateBinaryOperator operator l r

/-- `YatayInterpreter.executeStatement` (the visitor dispatch over
`visitExpressionStatement` and `visitVariableDeclarationStatement`).
The value printed by the expression-statement trace line is recorded in
the output list; the textual formatting of the trace is abstracted. -/
def executeStatement (env : YatayEnvironment) :
    YatayStatement → Except YatayRuntimeError (YatayEnvironment × List YatayValue)
  | .expressionStatement expression =>
      match evaluateExpression env expression with
      | .error e => .error e
      | .ok value => .ok (env, [value])
  | .variableDeclaration name initializer =>
      match (match initializer with
             | none => Except.ok YatayValue.vNull
             | some e => evaluateExpression env e) with
      | .error e => .error e
      | .ok value =>
          match env.define name value with
          | .error e => .error e
          | .ok env' => .ok (env', [])

/-! ## The diagnostics sink (`yatay-cli.ts`) -/

/-- The observable state of the `YatayCli` diagnostics sink: the two
monotonic error flags and the lines written to the standard error
stream. -/
structure YatayCliState where
  hadError : Bool
  hadRuntimeError : Bool
  errorOutput : List String
deriving DecidableEq, Repr

/-- The line `announceRuntimeError` writes for a runtime error. -/
def runtimeErrorLine (error : YatayRuntimeError) : String :=
  "[Línea " ++ toString error.token.line ++ "] " ++ error.message

/-- `YatayCli.announceRuntimeError`: writes the error line and sets
`hadRuntimeError`. -/
def YatayCliState.announceRuntimeError (cli : YatayCliState)
    (error : YatayRuntimeError) : YatayCliState :=
  { cli with
      errorOutput := cli.errorOutput ++ [runtimeErrorLine error]
      hadRuntimeError := true }

/-- The statement loop inside `YatayInterpreter.interpret`: executes the
statements in order and stops at the first runtime error, returning the
environment and the outputs produced so far and the error, if any. -/
def runStatements (env : YatayEnvironment) :
    List YatayStatement →
      YatayEnvironment × List YatayValue × Option YatayRuntimeError
  | [] => (env, [], none)
  | statement :: rest =>
      match executeStatement env statement with
      | .error e => (env, [], some e)
      | .ok (env', out) =>
          let (env'', outs, res) := runStatements env' rest
          (env'', out ++ outs, res)

/-- `YatayInterpreter.interpret`: runs the statements; a thrown
`YatayRuntimeError` is caught once at the top and announced to the CLI. -/
def interpret (cli : YatayCliState) (env : YatayEnvironment)
    (statements : List YatayStatement) :
    YatayCliState × YatayEnvironment × List YatayValue :=
  match runStatements env statements with
  | (env', outs, none) => (cli, env', outs)
  | (env', outs, some e) => (cli.announceRuntimeError e, env', outs)

/-! ## The scanner (`yatay-scanner.ts`) -/

/-- The mutable state of a `YatayScanner` run: the (read-only) source
character stream, the three cursors, and the accumulated tokens and
announced scanning errors (line, message). -/
structure ScannerState where
  sourceCode : List Char
  tokenStart : Nat
  currentIndex : Nat
  currentLine : Nat
  tokens : List YatayToken
  errors : List (Nat × String)
deriving DecidableEq, Repr

/-- `isAtStart`: the current character is at the start of the file. -/
def ScannerState.isAtStart (st : ScannerState) : Bool :=
  decide (st.currentIndex ≤ 0)

/-- `isAtEnd`: the current character is at the end of the file. -/
def ScannerState.isAtEnd (st : ScannerState) : Bool :=
  decide (st.sourceCode.length ≤ st.currentIndex)

/-- `isNextAtEnd`: the next character is at the end of the file. -/
def ScannerState.isNextAtEnd (st : ScannerState) : Bool :=
  decide (st.sourceCode.length ≤ st.currentIndex + 1)

/-- `previousCharacter` (the null character stands in for the guard value
`"\0"`). -/
def ScannerState.previousCharacter (st : ScannerState) : Char :=
  if st.isAtStart then '\x00' else st.sourceCode.getD (st.currentIndex - 1) '\x00'

/-- `currentCharacter`. -/
def ScannerState.currentCharacter (st : ScannerState) : Char :=
  if st.isAtEnd then '\x00' else st.sourceCode.getD st.currentIndex '\x00'

/-- `nextCharacter`. -/
def ScannerState.nextCharacter (st : ScannerState) : Char :=
  if st.isNextAtEnd then '\x00' else st.sourceCode.getD (st.currentIndex + 1) '\x00'

/-- The state effect of `advance()`: consume one character. -/
def ScannerState.advanceState (st : ScannerState) : ScannerState :=
  { st with currentIndex := st.currentIndex + 1 }

/-- `advance()`: unconditionally consume a character and return it. -/
def ScannerState.advanceChar (st : ScannerState) : Char × ScannerState :=
  (st.sourceCode.getD st.currentIndex '\x00', st.advanceState)

/-- `match(expected)`: conditionally consume the current character when it
equals the expected one. -/
def ScannerState.matchChar (st : ScannerState) (expected : Char) : Bool × ScannerState :=
  if st.isAtEnd || decide (st.sourceCode.getD st.currentIndex '\x00' ≠ expected) then
    (false, st)
  else
    (true, st.advanceState)

/-- The lexeme of the token currently being scanned:
`sourceCode.substring(tokenStart, currentIndex)`. -/
def ScannerState.lexemeChars (st : ScannerState) : List Char :=
  (st.sourceCode.drop st.tokenStart).take (st.currentIndex - st.tokenStart)

/-- `addToken`: append a token carrying the current lexeme and line. -/
def ScannerState.addToken (st : ScannerState) (kind : YatayTokenKind)
    (literal : YatayLiteral) : ScannerState :=
  { st with
      tokens := st.tokens ++ [⟨kind, ⟨st.lexemeChars⟩, literal, st.currentLine⟩] }

/-- `announceError`: report a scanning error on the current line. -/
def ScannerState.announceError (st : ScannerState) (message : String) : ScannerState :=
  { st with errors := st.errors ++ [(st.currentLine, message)] }

/-- `isDigit`: the regex `/^[0-9]$/`. -/
def isDigitChar (c : Char) : Bool :=
  decide ('0' ≤ c) && decide (c ≤ '9')

/-- `isAlphabetic`: the regex `/^[a-záéíóúüñ]$/i`. -/
def isAlphabeticChar (c : Char) : Bool :=
  (decide ('a' ≤ c) && decide (c ≤ 'z')) ||
  (decide ('A' ≤ c) && decide (c ≤ 'Z')) ||
  ['á', 'é', 'í', 'ó', 'ú', 'ü', 'ñ', 'Á', 'É', 'Í', 'Ó', 'Ú', 'Ü', 'Ñ'].contains c

/-- `isNumberSeparator`: the underscore. -/
def isNumberSeparatorChar (c : Char) : Bool :=
  decide (c = '_')

/-- `isDecimalSeparator`: the comma. -/
def isDecimalSeparatorChar (c : Char) : Bool :=
  decide (c = ',')

/-- `isIdentifierSeparator`: the underscore. -/
def isIdentifierSeparatorChar (c : Char) : Bool :=
  decide (c = '_')

/-- `isIntegerNonStarter`: a digit or a number separator. -/
def isIntegerNonStarterChar (c : Char) : Bool :=
  isDigitChar c || isNumberSeparatorChar c

/-- `isAlphanumeric`. -/
def isAlphanumericChar (c : Char) : Bool :=
  isDigitChar c || isAlphabeticChar c

/-- `isIdentifierStarter`. -/
def isIdentifierStarterChar (c : Char) : Bool :=
  isAlphabeticChar c || isIdentifierSeparatorChar c

/-- `isIdentifierNonStarter`. -/
def isIdentifierNonStarterChar (c : Char) : Bool :=
  isAlphanumericChar c || isIdentifierSeparatorChar c

/-- The keyword table of the scanner's `keywordMap`. -/
def keywordMap : List (String × YatayTokenKind) :=
  [("base", .keywordBase), ("clase", .keywordClase), ("definir", .keywordDefinir),
   ("devolver", .keywordDevolver), ("falso", .keywordFalso),
   ("instancia", .keywordInstancia), ("mientras", .keywordMientras),
   ("no", .keywordNo), ("o", .keywordO), ("repetir", .keywordRepetir),
   ("si", .keywordSi), ("sino", .keywordSino), ("verdadero", .keywordVerdadero),
   ("y", .keywordY)]

/-- The "closing quotation mark not found" message. -/
def closingQuoteMessage : String :=
  "No se encontró la comilla de cierre del texto."

/-- The "no two consecutive underscores" message. -/
def twoSeparatorsMessage : String :=
  "No pueden haber dos guiones bajos consecutivos en un número."

/-- The "no underscore immediately before the decimal separator"
message. -/
def separatorBeforeDecimalMessage : String :=
  "No puede haber un guión bajo inmediatamente antes del separador decimal en un número."

/-- The "no underscore immediately after the decimal separator"
message. -/
def separatorAfterDecimalMessage : String :=
  "No puede haber un guión bajo inmediatamente después del separador decimal en un número."

/-- The "a number cannot end in an underscore" message. -/
def trailingSeparatorMessage : String :=
  "Un número no puede terminar en guión bajo."

/-- The "magnitude too large to represent in memory" message. -/
def magnitudeMessage : String :=
  "La magnitud del número es demasiado grande para ser representada en memoria."

/-- `Number.MAX_SAFE_INTEGER`, `2^53 - 1`. -/
def maxSafeInteger : ℚ := 2 ^ 53 - 1

/-- `Number.MIN_SAFE_INTEGER`, `-(2^53 - 1)`. -/
def minSafeInteger : ℚ := -(2 ^ 53 - 1)

/-- A fuel bound that dominates every remaining iteration count of the
scanner's inner loops (each iteration consumes one character). -/
def scannerFuel (st : ScannerState) : Nat :=
  st.sourceCode.length + 1

/-- `consumeLineComment`: discard characters up to (but not including)
the next newline or the end of the source. -/
def consumeLineComment : Nat → ScannerState → ScannerState
  | 0, st => st
  | fuel + 1, st =>
      if decide (st.currentCharacter ≠ '\n') && !st.isAtEnd then
        consumeLineComment fuel st.advanceState
      else st

/-- The scanning loop of `finishString`: consume characters up to the
closing quotation mark, a newline, or the end of the source. -/
def finishStringLoop : Nat → ScannerState → ScannerState
  | 0, st => st
  | fuel + 1, st =>
      if decide (st.currentCharacter ≠ '"') && decide (st.currentCharacter ≠ '\n')
          && !st.isAtEnd then
        finishStringLoop fuel st.advanceState
      else st

/-- `finishString`: consume a string literal after its opening quotation
mark; a newline or the end of the source before the closing mark is a
scanning error and produces no token. -/
def finishString (st : ScannerState) : ScannerState :=
  let s1 := finishStringLoop (scannerFuel st) st
  if s1.currentCharacter = '\n' || s1.isAtEnd then
    s1.announceError closingQuoteMessage
  else
    let s2 := s1.advanceState
    let value : List Char :=
      (s2.sourceCode.drop (s2.tokenStart + 1)).take (s2.currentIndex - 1 - (s2.tokenStart + 1))
    s2.addToken .string (.strLiteral ⟨value⟩)

/-- `consumeInteger`: consume a digit sequence possibly containing
underscore separators, announcing an error at every pair of consecutive
underscores. -/
def consumeInteger : Nat → ScannerState → ScannerState
  | 0, st => st
  | fuel + 1, st =>
      if isIntegerNonStarterChar st.currentCharacter then
        let st1 :=
          if isNumberSeparatorChar st.previousCharacter
              && isNumberSeparatorChar st.currentCharacter then
            st.announceError twoSeparatorsMessage
          else st
        consumeInteger fuel st1.advanceState
      else st

/-- `consumeDecimalSeparator`: announce errors for an underscore
immediately before or after the decimal separator, then consume the
separator. -/
def consumeDecimalSeparator (st : ScannerState) : ScannerState :=
  let s1 :=
    if isNumberSeparatorChar st.previousCharacter then
      st.announceError separatorBeforeDecimalMessage
    else st
  let s2 :=
    if isNumberSeparatorChar s1.nextCharacter then
      s1.announceError separatorAfterDecimalMessage
    else s1
  s2.advanceState

/-- The consumption phase of `finishNumber`: the integer part, and, when a
decimal separator followed by a digit or underscore is present, the
separator and the fractional part. -/
def consumeNumberBody (fuel : Nat) (st : ScannerState) : ScannerState :=
  let s1 := consumeInteger fuel st
  if isDecimalSeparatorChar s1.currentCharacter
      && isIntegerNonStarterChar s1.nextCharacter then
    consumeInteger fuel (consumeDecimalSeparator s1)
  else s1

/-- The lexeme cleanup performed before `Number.parseFloat`: every comma
becomes a dot and every underscore is removed. -/
def cleanNumberLexeme (cs : List Char) : List Char :=
  (cs.filter fun c => decide (c ≠ '_')).map fun c => if c = ',' then '.' else c

/-- The numeric value of a digit sequence. -/
def parseDigitsNat (cs : List Char) : Nat :=
  cs.foldl (fun a c => a * 10 + (c.toNat - '0'.toNat)) 0

/-- `Number.parseFloat` on the cleaned number lexeme (digits, optionally a
dot and further digits), modelled as the exact decimal value.  The
rounding to the nearest double is abstracted; it is exact on the integer
literals the representability claims are about. -/
def parseDecimalValue (cs : List Char) : ℚ :=
  let integerPart := cs.takeWhile fun c => decide (c ≠ '.')
  let fractionalPart := (cs.dropWhile fun c => decide (c ≠ '.')).drop 1
  (parseDigitsNat integerPart : ℚ) +
    (parseDigitsNat fractionalPart : ℚ) / (10 : ℚ) ^ fractionalPart.length

/-- `validateNumberIsRepresentable`: announce the "magnitude too large"
error when the value lies outside
`[Number.MIN_SAFE_INTEGER, Number.MAX_SAFE_INTEGER]`. -/
def validateNumberIsRepresentable (value : ℚ) (st : ScannerState) : ScannerState :=
  if value < minSafeInteger || value > maxSafeInteger then
    st.announceError magnitudeMessage
  else st

/-- `finishNumber`: consume a number literal after its first digit,
announce an error for a trailing underscore, parse the value, validate its
representability, and add the token. -/
def finishNumber (st : ScannerState) : ScannerState :=
  let s1 := consumeNumberBody (scannerFuel st) st
  let s2 :=
    if isNumberSeparatorChar s1.previousCharacter then
      s1.announceError trailingSeparatorMessage
    else s1
  let value := parseDecimalValue (cleanNumberLexeme s2.lexemeChars)
  let s3 := validateNumberIsRepresentable value s2
  s3.addToken .number (.numLiteral value)

/-- The consumption loop of `finishIdentifier`. -/
def finishIdentifierLoop : Nat → ScannerState → ScannerState
  | 0, st => st
  | fuel + 1, st =>
      if isIdentifierNonStarterChar st.currentCharacter then
        finishIdentifierLoop fuel st.advanceState
      else st

/-- `finishIdentifier`: consume the rest of an identifier and add the
token, with the kind given by the keyword table when the lexeme is a
keyword. -/
def finishIdentifier (st : ScannerState) : ScannerState :=
  let s1 := finishIdentifierLoop (scannerFuel st) st
  let kind := (keywordMap.lookup (⟨s1.lexemeChars⟩ : String)).getD .identifier
  s1.addToken kind .nullLiteral

/-- The body of `scanToken` after `advance()`: the TypeScript `switch`
on the consumed character. -/
def scanTokenDispatch (character : Char) (s : ScannerState) : ScannerState :=
  match character with
  | '(' => s.addToken .openingParenthesis .nullLiteral
  | ')' => s.addToken .closingParenthesis .nullLiteral
  | '[' => s.addToken .openingSquareBracket .nullLiteral
  | ']' => s.addToken .closingSquareBracket .nullLiteral
  | '\x7b' => s.addToken .openingCurlyBrace .nullLiteral
  | '\x7d' => s.addToken .closingCurlyBrace .nullLiteral
  | '.' => s.addToken .dot .nullLiteral
  | ',' => s.addToken .comma .nullLiteral
  | ':' =>
      let m := s.matchChar ':'
      if m.1 then consumeLineComment (scannerFuel m.2) m.2
      else m.2.addToken .colon .nullLiteral
  | ';' => s.addToken .semicolon .nullLiteral
  | '#' => s.addToken .hash .nullLiteral
  | '+' => s.addToken .plus .nullLiteral
  | '-' => s.addToken .minus .nullLiteral
  | '*' => s.addToken .asterisk .nullLiteral
  | '/' =>
      let m := s.matchChar '/'
      if m.1 then m.2.addToken .doubleSlash .nullLiteral
      else m.2.addToken .slash .nullLiteral
  | '=' =>
      let m := s.matchChar '<'
      if m.1 then m.2.addToken .lessOrEqual .nullLiteral
      else m.2.addToken .equal .nullLiteral
  | '>' =>
      let m := s.matchChar '<'
      if m.1 then m.2.addToken .unequal .nullLiteral
      else
        let m' := m.2.matchChar '='
        if m'.1 then m'.2.addToken .greaterOrEqual .nullLiteral
        else m'.2.addToken .greater .nullLiteral
  | '<' =>
      let m := s.matchChar '='
      if m.1 then m.2.addToken .assign .nullLiteral
      else m.2.addToken .less .nullLiteral
  | ' ' | '\r' | '\t' => s
  | '\n' => { s with currentLine := s.currentLine + 1 }
  | '"' => finishString s
  | _ =>
      if isDigitChar character then finishNumber s
      else if isIdentifierStarterChar character then finishIdentifier s
      else
        s.announceError
          ("Se encontró un carácter inesperado: \"" ++ String.singleton character ++ "\".")

/-- `scanToken`: consume one character and dispatch on it. -/
def scanToken (st : ScannerState) : ScannerState :=
  scanTokenDispatch st.advanceChar.1 st.advanceChar.2

/-- The outer loop of `scanTokens`: while not at the end, set
`tokenStart` to the current index and scan one token. -/
def scanLoop : Nat → ScannerState → ScannerState
  | 0, st => st
  | fuel + 1, st =>
      if st.isAtEnd then st
      else scanLoop fuel (scanToken { st with tokenStart := st.currentIndex })

/-- `YatayScanner.scanTokens`: scan the whole source and append the final
`EndOfFile` token carrying the final line number. -/
def scanTokens (sourceCode : List Char) : ScannerState :=
  let st : ScannerState :=
    { sourceCode := sourceCode, tokenStart := 0, currentIndex := 0,
      currentLine := 1, tokens := [], errors := [] }
  let s1 := scanLoop (sourceCode.length + 1) st
  { s1 with tokens := s1.tokens ++ [⟨.endOfFile, "", .nullLiteral, s1.currentLine⟩] }

/-! ## The parser (`yatay-parser.ts`) -/

/-- The outcome of a parsing function: a parsed value together with the
new token index, a thrown `YatayParseError` (carrying the announced
offending token and message) together with the index the parser stopped
at, or exhaustion of the recursion fuel (which the fuel-sufficiency
theorems rule out for the fuel actually used). -/
inductive ParseRes (α : Type) where
  | ok (value : α) (idx : Nat)
  | err (token : YatayToken) (message : String) (idx : Nat)
  | out
deriving Repr, DecidableEq

/-- The stand-in token returned for an out-of-range token access; the
TypeScript code would read `undefined`, which never happens while an
`EndOfFile` token lies ahead of the cursor. -/
def eofFallback : YatayToken := ⟨.endOfFile, "", .nullLiteral, 0⟩

/-- `currentToken`: the token currently pointed at. -/
def currentToken (tokens : List YatayToken) (idx : Nat) : YatayToken :=
  tokens.getD idx eofFallback

/-- `previousToken`: the last consumed token. -/
def previousToken (tokens : List YatayToken) (idx : Nat) : YatayToken :=
  tokens.getD (idx - 1) eofFallback

/-- `isAtEnd`: the current token is the `EndOfFile` token. -/
def parserIsAtEnd (tokens : List YatayToken) (idx : Nat) : Bool :=
  decide ((currentToken tokens idx).kind = .endOfFile)

/-- The index effect of `advance()`: move unless already at the
`EndOfFile` token. -/
def advanceIdx (tokens : List YatayToken) (idx : Nat) : Nat :=
  if parserIsAtEnd tokens idx then idx else idx + 1

/-- `advance()`: move unless at the end and return the (new) previous
token. -/
def advanceP (tokens : List YatayToken) (idx : Nat) : YatayToken × Nat :=
  let idx' := advanceIdx tokens idx
  (previousToken tokens idx', idx')

/-- `matchAny(...tokenKinds)`: when the current token has one of the
kinds, advance and report success; otherwise stay put. -/
def matchAny (tokens : List YatayToken) (kinds : List YatayTokenKind)
    (idx : Nat) : Bool × Nat :=
  if kinds.contains (currentToken tokens idx).kind then
    (true, advanceIdx tokens idx)
  else
    (false, idx)

/-- `consume(tokenKind, errorMessage)`: advance past the expected token
kind or throw a parse error at the current token. -/
def consume (tokens : List YatayToken) (kind : YatayTokenKind)
    (message : String) (idx : Nat) : ParseRes YatayToken :=
  if (currentToken tokens idx).kind = kind then
    let (t, idx') := advanceP tokens idx
    .ok t idx'
  else
    .err (currentToken tokens idx) message idx

/-- The comparison operator kinds of `matchAnyComparisonOperator`. -/
def comparisonOperatorKinds : List YatayTokenKind :=
  [.equal, .unequal, .less, .lessOrEqual, .greater, .greaterOrEqual]

/-- The term operator kinds of `matchAnyTermOperator`. -/
def termOperatorKinds : List YatayTokenKind :=
  [.plus, .minus]

/-- The factor operator kinds of `matchAnyFactorOperator`. -/
def factorOperatorKinds : List YatayTokenKind :=
  [.asterisk, .slash, .doubleSlash]

/-- The unary operator kinds of `matchAnyUnaryOperator`. -/
def unaryOperatorKinds : List YatayTokenKind :=
  [.minus, .keywordNo]

/-- The token literal turned into the run-time value stored in a literal
expression node (the TypeScript code passes `previousToken.literal`
through with a type assertion). -/
def literalToValue : YatayLiteral → YatayValue
  | .nullLiteral => .vNull
  | .strLiteral s => .vStr s
  | .numLiteral q => .vNumber (.fin q)

/-- Message of `parseVariableDeclaration` when the identifier is
missing. -/
def expectIdentifierMessage : String :=
  "Se esperaba un identificador."

/-- Message of the `.`-terminator consumption of declarations and
statements. -/
def expectDotMessage : String :=
  "Se esperaba un \".\" tras la sentencia."

/-- Message of the `)`-consumption of `parsePrimary` (the `??` is an
encoding artifact present verbatim in the source file). -/
def expectClosingParenthesisMessage : String :=
  "Se esperaba un \")\" tras la expresi??n."

/-- Message of `parsePrimary` when no expression starts at the current
token (the `??` is an encoding artifact present verbatim in the source
file). -/
def expectExpressionMessage : String :=
  "Se esperaba una expresi??n."

mutual

/-- `parseExpression`. -/
def parseExpression (tokens : List YatayToken) : Nat → Nat → ParseRes YatayExpression
  | 0, _ => .out
  | fuel + 1, idx => parseComparison tokens fuel idx
termination_by structural fuel => fuel

/-- `parseComparison`. -/
def parseComparison (tokens : List YatayToken) : Nat → Nat → ParseRes YatayExpression
  | 0, _ => .out
  | fuel + 1, idx =>
      match parseTerm tokens fuel idx with
      | .ok expression idx' => comparisonLoop tokens fuel expression idx'
      | .err t m i => .err t m i
      | .out => .out
termination_by structural fuel => fuel

/-- The `while (matchAnyComparisonOperator())` loop of
`parseComparison`. -/
def comparisonLoop (tokens : List YatayToken) :
    Nat → YatayExpression → Nat → ParseRes YatayExpression
  | 0, _, _ => .out
  | fuel + 1, expression, idx =>
      match matchAny tokens comparisonOperatorKinds idx with
      | (true, idx') =>
          let operator := previousToken tokens idx'
          match parseTerm tokens fuel idx' with
          | .ok rightOperand idx'' =>
              comparisonLoop tokens fuel (.binary expression operator rightOperand) idx''
          | .err t m i => .err t m i
          | .out => .out
      | (false, _) => .ok expression idx
termination_by structural fuel => fuel

/-- `parseTerm`. -/
def parseTerm (tokens : List YatayToken) : Nat → Nat → ParseRes YatayExpression
  | 0, _ => .out
  | fuel + 1, idx =>
      match parseFactor tokens fuel idx with
      | .ok expression idx' => termLoop tokens fuel expression idx'
      | .err t m i => .err t m i
      | .out => .out
termination_by structural fuel => fuel

/-- The `while (matchAnyTermOperator())` loop of `parseTerm`. -/
def termLoop (tokens : List YatayToken) :
    Nat → YatayExpression → Nat → ParseRes YatayExpression
  | 0, _, _ => .out
  | fuel + 1, expression, idx =>
      match matchAny tokens termOperatorKinds idx with
      | (true, idx') =>
          let operator := previousToken tokens idx'
          match parseFactor tokens fuel idx' with
          | .ok rightOperand idx'' =>
              termLoop tokens fuel (.binary expression operator rightOperand) idx''
          | .err t m i => .err t m i
          | .out => .out
      | (false, _) => .ok expression idx
termination_by structural fuel => fuel

/-- `parseFactor`. -/
def parseFactor (tokens : List YatayToken) : Nat → Nat → ParseRes YatayExpression
  | 0, _ => .out
  | fuel + 1, idx =>
      match parseUnary tokens fuel idx with
      | .ok expression idx' => factorLoop tokens fuel expression idx'
      | .err t m i => .err t m i
      | .out => .out
termination_by structural fuel => fuel

/-- The `while (matchAnyFactorOperator())` loop of `parseFactor`. -/
def factorLoop (tokens : List YatayToken) :
    Nat → YatayExpression → Nat → ParseRes YatayExpression
  | 0, _, _ => .out
  | fuel + 1, expression, idx =>
      match matchAny tokens factorOperatorKinds idx with
      | (true, idx') =>
          let operator := previousToken tokens idx'
          match parseUnary tokens fuel idx' with
          | .ok rightOperand idx'' =>
              factorLoop tokens fuel (.binary expression operator rightOperand) idx''
          | .err t m i => .err t m i
          | .out => .out
      | (false, _) => .ok expression idx
termination_by structural fuel => fuel

/-- `parseUnary`. -/
def parseUnary (tokens : List YatayToken) : Nat → Nat → ParseRes YatayExpression
  | 0, _ => .out
  | fuel + 1, idx =>
      match matchAny tokens unaryOperatorKinds idx with
      | (true, idx') =>
          let operator := previousToken tokens idx'
          match parseUnary tokens fuel idx' with
          | .ok operand idx'' => .ok (.unary operator operand) idx''
          | .err t m i => .err t m i
          | .out => .out
      | (false, _) => parsePrimary tokens fuel idx
termination_by structural fuel => fuel

/-- `parsePrimary`. -/
def parsePrimary (tokens : List YatayToken) : Nat → Nat → ParseRes YatayExpression
  | 0, _ => .out
  | fuel + 1, idx =>
      match matchAny tokens [.keywordVerdadero] idx with
      | (true, idx') => .ok (.literal (.vBool true)) idx'
      | (false, _) =>
      match matchAny tokens [.keywordFalso] idx with
      | (true, idx') => .ok (.literal (.vBool false)) idx'
      | (false, _) =>
      match matchAny tokens [.string, .number] idx with
      | (true, idx') => .ok (.literal (literalToValue (previousToken tokens idx').literal)) idx'
      | (false, _) =>
      match matchAny tokens [.identifier] idx with
      | (true, idx') => .ok (.variableAccess (previousToken tokens idx')) idx'
      | (false, _) =>
      match matchAny tokens [.openingParenthesis] idx with
      | (true, idx') =>
          match parseExpression tokens fuel idx' with
          | .ok innerExpression i =>
              match consume tokens .closingParenthesis expectClosingParenthesisMessage i with
              | .ok _ i' => .ok (.grouping innerExpression) i'
              | .err t m j => .err t m j
              | .out => .out
          | .err t m i => .err t m i
          | .out => .out
      | (false, _) =>
          .err (currentToken tokens idx) expectExpressionMessage idx

termination_by structural fuel => fuel
end

/-- The statement-starter keyword kinds of the `switch` inside
`synchronize`. -/
def synchronizationTokenKinds : List YatayTokenKind :=
  [.keywordClase, .keywordDefinir, .keywordDevolver,
   .keywordMientras, .keywordRepetir, .keywordSi]

/-- The `while` loop of `synchronize`: discard tokens until the end of
the file, a previously consumed `.`, or a statement-starter keyword;
`none` is fuel exhaustion. -/
def synchronizeLoop (tokens : List YatayToken) : Nat → Nat → Option Nat
  | 0, _ => none
  | fuel + 1, idx =>
      if parserIsAtEnd tokens idx then some idx
      else if (previousToken tokens idx).kind = .dot then some idx
      else if synchronizationTokenKinds.contains (currentToken tokens idx).kind then
        some idx
      else synchronizeLoop tokens fuel (advanceIdx tokens idx)

/-- `synchronize`: the panic-mode recovery, an unconditional `advance()`
followed by the discarding loop. -/
def synchronize (tokens : List YatayToken) : Nat → Nat → Option Nat
  | 0, _ => none
  | fuel + 1, idx => synchronizeLoop tokens fuel (advanceIdx tokens idx)

/-- `parseVariableDeclaration` (entered after the `definir` keyword was
consumed). -/
def parseVariableDeclaration (tokens : List YatayToken) :
    Nat → Nat → ParseRes YatayStatement
  | 0, _ => .out
  | fuel + 1, idx =>
      match consume tokens .identifier expectIdentifierMessage idx with
      | .err t m i => .err t m i
      | .out => .out
      | .ok name idx1 =>
          match matchAny tokens [.assign] idx1 with
          | (true, idx2) =>
              match parseExpression tokens fuel idx2 with
              | .ok initializer idx3 =>
                  match consume tokens .dot expectDotMessage idx3 with
                  | .ok _ idx4 => .ok (.variableDeclaration name (some initializer)) idx4
                  | .err t m i => .err t m i
                  | .out => .out
              | .err t m i => .err t m i
              | .out => .out
          | (false, _) =>
              match consume tokens .dot expectDotMessage idx1 with
              | .ok _ idx2 => .ok (.variableDeclaration name none) idx2
              | .err t m i => .err t m i
              | .out => .out

/-- `parseExpressionStatement`. -/
def parseExpressionStatement (tokens : List YatayToken) :
    Nat → Nat → ParseRes YatayStatement
  | 0, _ => .out
  | fuel + 1, idx =>
      match parseExpression tokens fuel idx with
      | .ok expression idx' =>
          match consume tokens .dot expectDotMessage idx' with
          | .ok _ idx'' => .ok (.expressionStatement expression) idx''
          | .err t m i => .err t m i
          | .out => .out
      | .err t m i => .err t m i
      | .out => .out

/-- `parseStatement`. -/
def parseStatement (tokens : List YatayToken) : Nat → Nat → ParseRes YatayStatement
  | 0, _ => .out
  | fuel + 1, idx => parseExpressionStatement tokens fuel idx

/-- The body of the `try` block of `parseDeclaration`: dispatch on a
leading `definir` keyword. -/
def parseDeclarationCore (tokens : List YatayToken) :
    Nat → Nat → ParseRes YatayStatement
  | 0, _ => .out
  | fuel + 1, idx =>
      match matchAny tokens [.keywordDefinir] idx with
      | (true, idx') => parseVariableDeclaration tokens fuel idx'
      | (false, _) => parseStatement tokens fuel idx

/-- `parseDeclaration`: the `try`/`catch` around the declaration body; a
caught `YatayParseError` synchronizes and yields `null` (here `none`). -/
def parseDeclaration (tokens : List YatayToken) :
    Nat → Nat → ParseRes (Option YatayStatement)
  | 0, _ => .out
  | fuel + 1, idx =>
      match parseDeclarationCore tokens fuel idx with
      | .ok statement i => .ok (some statement) i
      | .err _ _ i =>
          match synchronize tokens fuel i with
          | some j => .ok none j
          | none => .out
      | .out => .out

/-- The `while (!isAtEnd)` loop of `parse`: collect the non-`null`
declarations. -/
def declLoop (tokens : List YatayToken) :
    Nat → Nat → ParseRes (List YatayStatement)
  | 0, _ => .out
  | fuel + 1, idx =>
      if parserIsAtEnd tokens idx then .ok [] idx
      else
        match parseDeclaration tokens fuel idx with
        | .ok none i => declLoop tokens fuel i
        | .ok (some statement) i =>
            match declLoop tokens fuel i with
            | .ok rest j => .ok (statement :: rest) j
            | .err t m j => .err t m j
            | .out => .out
        | .err t m i => .err t m i
        | .out => .out

/-- The fuel `yatayParse` runs on; the fuel-sufficiency theorem shows it
is never exhausted when an `EndOfFile` token terminates the list. -/
def parserFuel (tokens : List YatayToken) : Nat :=
  8 * tokens.length + 16

/-- `YatayParser.parse`: parse the token list into the program's
statement list. -/
def yatayParse (tokens : List YatayToken) : ParseRes (List YatayStatement) :=
  declLoop tokens (parserFuel tokens) 0

/-! ## Spec-side definitions for comparison -/

/-- Truthiness exactly as the specification's sentence defines it:
absent is false, a boolean uses its own value, and every other value —
including the number `0` and the empty text — is true. -/
def specTruthiness : YatayValue → Bool
  | .vNull => false
  | .vBool b => b
  | _ => true

/-- Truthiness as the code actually computes it (JavaScript `Boolean`
coercion), stated independently from the interpreter: absent is false, a
boolean uses its own value, a number is true unless it is `0` or `NaN`,
and a text is true unless it is empty. -/
def amendedTruthiness : YatayValue → Bool
  | .vNull => false
  | .vBool b => b
  | .vNumber .nan => false
  | .vNumber (.fin q) => decide (q ≠ 0)
  | .vStr s => decide (s ≠ "")

/-! ## Sample tokens used by concrete witnesses -/

/-- A `no` keyword token. -/
def noToken : YatayToken := ⟨.keywordNo, "no", .nullLiteral, 1⟩

/-- A `/` token. -/
def slashToken : YatayToken := ⟨.slash, "/", .nullLiteral, 1⟩

/-- A `//` token. -/
def doubleSlashToken : YatayToken := ⟨.doubleSlash, "//", .nullLiteral, 1⟩

/-- An identifier token with lexeme `x`. -/
def xToken : YatayToken := ⟨.identifier, "x", .nullLiteral, 1⟩

/-! ## Theorems -/

/-- The code-side and the amended truthiness tables agree. -/
theorem jsBoolean_eq_amendedTruthiness (v : YatayValue) :
    jsBoolean v = amendedTruthiness v := by
  cases v with
  | vNull => rfl
  | vBool b => rfl
  | vNumber n => cases n <;> rfl
  | vStr s => rfl

/-- C1, counterexample: on the operand `0` the interpreter evaluates
`no 0` to `true`, while the claim's truthiness table (`0` is truthy)
prescribes `false`. -/
theorem noOperatorTruthinessCounterexample :
    evaluateExpression ⟨[]⟩ (.unary noToken (.literal (.vNumber (.fin 0)))) =
      .ok (.vBool true)
    ∧ (YatayValue.vBool true) ≠ .vBool (!specTruthiness (.vNumber (.fin 0))) := by
  constructor
  · rfl
  · decide

/-- C1 (amended): `no` returns the negation of JavaScript's `Boolean`
coercion of the operand: absent is false, a boolean is its own value, a
number is truthy unless it is `0` or `NaN`, and a text is truthy unless
it is empty (so `no 0` and `no ""` both evaluate to **true**). -/
theorem noOperatorTruthiness (env : YatayEnvironment) (operator : YatayToken)
    (e : YatayExpression) (v : YatayValue)
    (hop : operator.kind = .keywordNo)
    (hv : evaluateExpression env e = .ok v) :
    evaluateExpression env (.unary operator e) = .ok (.vBool (!amendedTruthiness v)) := by
  rw [← jsBoolean_eq_amendedTruthiness]
  simp only [evaluateExpression, hv, hop]

/-- Witness for C1's theorem at a concrete input: the empty text operand
(whose amended truthiness is false, so `no ""` is true). -/
theorem noOperatorTruthinessWitness :
    (noToken.kind = .keywordNo
      ∧ evaluateExpression ⟨[]⟩ (.literal (.vStr "")) = .ok (.vStr ""))
    ∧ evaluateExpression ⟨[]⟩ (.unary noToken (.literal (.vStr ""))) =
        .ok (.vBool (!amendedTruthiness (.vStr ""))) :=
  ⟨⟨by decide, rfl⟩,
    noOperatorTruthiness ⟨[]⟩ noToken (.literal (.vStr "")) (.vStr "")
      (by decide) rfl⟩

/-- C4: for `/` on two numeric operands, evaluation raises the
"divisor must be nonzero" runtime error exactly when the right operand is
the number `0`, and otherwise returns the quotient; when either operand is
not a number, one of the operand-type runtime errors is raised instead (no
division is performed and the divisor error cannot occur). -/
theorem slashOperatorSemantics (env : YatayEnvironment) (l r : YatayExpression)
    (operator : YatayToken) (vl vr : YatayValue)
    (hop : operator.kind = .slash)
    (hl : evaluateExpression env l = .ok vl)
    (hr : evaluateExpression env r = .ok vr) :
    (∀ a b, vl = .vNumber a → vr = .vNumber b →
      (vr = .vNumber (.fin 0) →
        evaluateExpression env (.binary l operator r) =
          .error ⟨operator, divisorMessage⟩)
      ∧ (vr ≠ .vNumber (.fin 0) →
        evaluateExpression env (.binary l operator r) = .ok (.vNumber (a.div b))))
    ∧ ((isNumberValue vl = false ∨ isNumberValue vr = false) →
      ∃ msg, evaluateExpression env (.binary l operator r) =
          .error ⟨operator, msg⟩
        ∧ (msg = bothOperandsNumbersMessage ∨ msg = leftOperandNumberMessage
            ∨ msg = rightOperandNumberMessage)) := by
  constructor
  · rintro a b rfl rfl
    constructor
    · intro h0
      simp only [evaluateExpression, hl, hr, evaluateBinaryOperator, hop,
        assertOperandsAreNumbers, isNumberValue, Bool.not_true, if_pos, if_neg,
        Bool.false_eq_true, if_false, h0, if_true]
    · intro hne
      simp only [evaluateExpression, hl, hr, evaluateBinaryOperator, hop,
        assertOperandsAreNumbers, isNumberValue, Bool.not_true,
        Bool.false_eq_true, if_false, if_neg hne]
  · intro hno
    simp only [evaluateExpression, hl, hr, evaluateBinaryOperator, hop]
    cases vl <;> cases vr <;>
      simp_all [assertOperandsAreNumbers, isNumberValue]

/-- Witness for C4's theorem at a concrete input: `1 / 0`, which takes the
divisor-error branch. -/
theorem slashOperatorSemanticsWitness :
    (slashToken.kind = .slash
      ∧ evaluateExpression ⟨[]⟩ (.literal (.vNumber (.fin 1))) = .ok (.vNumber (.fin 1))
      ∧ evaluateExpression ⟨[]⟩ (.literal (.vNumber (.fin 0))) = .ok (.vNumber (.fin 0)))
    ∧ ((∀ a b, (YatayValue.vNumber (.fin 1)) = .vNumber a →
          (YatayValue.vNumber (.fin 0)) = .vNumber b →
        ((YatayValue.vNumber (.fin 0)) = .vNumber (.fin 0) →
          evaluateExpression ⟨[]⟩
              (.binary (.literal (.vNumber (.fin 1))) slashToken
                (.literal (.vNumber (.fin 0)))) =
            .error ⟨slashToken, divisorMessage⟩)
        ∧ ((YatayValue.vNumber (.fin 0)) ≠ .vNumber (.fin 0) →
          evaluateExpression ⟨[]⟩
              (.binary (.literal (.vNumber (.fin 1))) slashToken
                (.literal (.vNumber (.fin 0)))) = .ok (.vNumber (a.div b))))
      ∧ ((isNumberValue (.vNumber (.fin 1)) = false
            ∨ isNumberValue (.vNumber (.fin 0)) = false) →
        ∃ msg, evaluateExpression ⟨[]⟩
            (.binary (.literal (.vNumber (.fin 1))) slashToken
              (.literal (.vNumber (.fin 0)))) = .error ⟨slashToken, msg⟩
          ∧ (msg = bothOperandsNumbersMessage ∨ msg = leftOperandNumberMessage
              ∨ msg = rightOperandNumberMessage))) :=
  ⟨⟨by decide, rfl, rfl⟩,
    slashOperatorSemantics ⟨[]⟩ (.literal (.vNumber (.fin 1)))
      (.literal (.vNumber (.fin 0))) slashToken (.vNumber (.fin 1))
      (.vNumber (.fin 0)) (by decide) rfl rfl⟩

/-- C8: for `//` on two numeric operands, evaluation never raises an
error — in particular not the zero-divisor error — and returns the
JavaScript remainder; when the right operand is `0` the result is the
number `NaN`. -/
theorem doubleSlashOperatorSemantics (env : YatayEnvironment)
    (l r : YatayExpression) (operator : YatayToken) (a b : JsNumber)
    (hop : operator.kind = .doubleSlash)
    (hl : evaluateExpression env l = .ok (.vNumber a))
    (hr : evaluateExpression env r = .ok (.vNumber b)) :
    evaluateExpression env (.binary l operator r) = .ok (.vNumber (a.rem b))
    ∧ (b = .fin 0 →
      evaluateExpression env (.binary l operator r) = .ok (.vNumber .nan)) := by
  have hmain : evaluateExpression env (.binary l operator r) = .ok (.vNumber (a.rem b)) := by
    simp only [evaluateExpression, hl, hr, evaluateBinaryOperator, hop,
      assertOperandsAreNumbers, isNumberValue, Bool.not_true,
      Bool.false_eq_true, if_false]
  refine ⟨hmain, fun hb => ?_⟩
  subst hb
  rw [hmain]
  cases a <;> simp [JsNumber.rem]

/-- Witness for C8's theorem at a concrete input: `1 // 0`, which
evaluates to `NaN` and raises no error. -/
theorem doubleSlashOperatorSemanticsWitness :
    (doubleSlashToken.kind = .doubleSlash
      ∧ evaluateExpression ⟨[]⟩ (.literal (.vNumber (.fin 1))) = .ok (.vNumber (.fin 1))
      ∧ evaluateExpression ⟨[]⟩ (.literal (.vNumber (.fin 0))) = .ok (.vNumber (.fin 0)))
    ∧ (evaluateExpression ⟨[]⟩
        (.binary (.literal (.vNumber (.fin 1))) doubleSlashToken
          (.literal (.vNumber (.fin 0)))) =
        .ok (.vNumber ((JsNumber.fin 1).rem (.fin 0)))
      ∧ ((JsNumber.fin 0) = .fin 0 →
        evaluateExpression ⟨[]⟩
          (.binary (.literal (.vNumber (.fin 1))) doubleSlashToken
            (.literal (.vNumber (.fin 0)))) = .ok (.vNumber .nan))) :=
  ⟨⟨by decide, rfl, rfl⟩,
    doubleSlashOperatorSemantics ⟨[]⟩ (.literal (.vNumber (.fin 1)))
      (.literal (.vNumber (.fin 0))) doubleSlashToken (.fin 1) (.fin 0)
      (by decide) rfl rfl⟩

/-- C7: defining an identifier in a fresh environment and reading any
token with the same lexeme back returns the defined value without an
error. -/
theorem defineThenGet (t : YatayToken) (v : YatayValue) (t' : YatayToken)
    (h : t'.lexeme = t.lexeme) :
    ∃ env', YatayEnvironment.define ⟨[]⟩ t v = .ok env'
      ∧ env'.get t' = .ok v := by
  refine ⟨⟨[(t.lexeme, v)]⟩, ?_, ?_⟩
  · rfl
  · simp [YatayEnvironment.get, List.lookup, h]

/-- Witness for C7's theorem at a concrete input. -/
theorem defineThenGetWitness :
    (xToken.lexeme = xToken.lexeme)
    ∧ ∃ env', YatayEnvironment.define ⟨[]⟩ xToken (.vNumber (.fin 3)) = .ok env'
        ∧ env'.get xToken = .ok (.vNumber (.fin 3)) :=
  ⟨rfl, defineThenGet xToken (.vNumber (.fin 3)) xToken rfl⟩

/-- Splitting lemma for the interpreter's statement loop: after an
error-free prefix, execution continues from the prefix's final
environment. -/
theorem runStatements_append (l₁ : List YatayStatement) :
    ∀ (env env₁ : YatayEnvironment) (outs : List YatayValue)
      (l₂ : List YatayStatement),
      runStatements env l₁ = (env₁, outs, none) →
      runStatements env (l₁ ++ l₂) =
        ((runStatements env₁ l₂).1, outs ++ (runStatements env₁ l₂).2.1,
          (runStatements env₁ l₂).2.2) := by
  induction l₁ with
  | nil =>
      intro env env₁ outs l₂ h
      simp only [runStatements, Prod.mk.injEq] at h
      obtain ⟨rfl, rfl, -⟩ := h
      simp [runStatements]
  | cons s rest ih =>
      intro env env₁ outs l₂ h
      simp only [runStatements] at h
      cases hs : executeStatement env s with
      | error e =>
          rw [hs] at h
          simp only [Prod.mk.injEq] at h
          exact absurd h.2.2 (Option.some_ne_none e)
      | ok p =>
          obtain ⟨env', out⟩ := p
          rw [hs] at h
          dsimp only at h
          rcases hq : runStatements env' rest with ⟨env'', outs', res⟩
          rw [hq] at h
          simp only [Prod.mk.injEq] at h
          obtain ⟨rfl, rfl, rfl⟩ := h
          have hih := ih env' env'' outs' l₂ hq
          simp only [List.cons_append, runStatements, hs, List.append_eq, hih,
            List.append_assoc]

/-- C5: when a runtime error occurs partway through a program, the
interpreter never executes the statements after the failing one (the
outcome equals that of the truncated program), the error is reported
through the diagnostics sink exactly once (exactly one line is appended
to the error output), and `hadRuntimeError` is set afterwards. -/
theorem runtimeErrorAbortsOnce (cli : YatayCliState) (env env₁ : YatayEnvironment)
    (done rest : List YatayStatement) (bad : YatayStatement)
    (outs : List YatayValue) (e : YatayRuntimeError)
    (hdone : runStatements env done = (env₁, outs, none))
    (hbad : executeStatement env₁ bad = .error e) :
    interpret cli env (done ++ bad :: rest) = interpret cli env (done ++ [bad])
    ∧ (interpret cli env (done ++ bad :: rest)).1.errorOutput =
        cli.errorOutput ++ [runtimeErrorLine e]
    ∧ (interpret cli env (done ++ bad :: rest)).1.hadRuntimeError = true := by
  have hfull : ∀ (l₂ : List YatayStatement),
      runStatements env (done ++ bad :: l₂) = (env₁, outs, some e) := by
    intro l₂
    rw [runStatements_append done env env₁ outs (bad :: l₂) hdone]
    simp [runStatements, hbad]
  have h1 : interpret cli env (done ++ bad :: rest) =
      (cli.announceRuntimeError e, env₁, outs) := by
    simp [interpret, hfull rest]
  have h2 : interpret cli env (done ++ [bad]) =
      (cli.announceRuntimeError e, env₁, outs) := by
    simp [interpret, hfull []]
  refine ⟨h1.trans h2.symm, ?_, ?_⟩ <;>
    simp [h1, YatayCliState.announceRuntimeError]

/-- Witness for C5's theorem at a concrete input: the program
`1 / 0. 2.` (the second statement is never executed). -/
theorem runtimeErrorAbortsOnceWitness :
    (runStatements ⟨[]⟩ [] = (⟨[]⟩, [], none)
      ∧ executeStatement ⟨[]⟩
          (.expressionStatement (.binary (.literal (.vNumber (.fin 1)))
            slashToken (.literal (.vNumber (.fin 0))))) =
          .error ⟨slashToken, divisorMessage⟩)
    ∧ (interpret ⟨false, false, []⟩ ⟨[]⟩
        ([] ++ (YatayStatement.expressionStatement (.binary (.literal (.vNumber (.fin 1)))
            slashToken (.literal (.vNumber (.fin 0))))) ::
          [.expressionStatement (.literal (.vNumber (.fin 2)))]) =
        interpret ⟨false, false, []⟩ ⟨[]⟩
          ([] ++ [.expressionStatement (.binary (.literal (.vNumber (.fin 1)))
            slashToken (.literal (.vNumber (.fin 0))))])
      ∧ (interpret ⟨false, false, []⟩ ⟨[]⟩
          ([] ++ (YatayStatement.expressionStatement (.binary (.literal (.vNumber (.fin 1)))
              slashToken (.literal (.vNumber (.fin 0))))) ::
            [.expressionStatement (.literal (.vNumber (.fin 2)))])).1.errorOutput =
          [] ++ [runtimeErrorLine ⟨slashToken, divisorMessage⟩]
      ∧ (interpret ⟨false, false, []⟩ ⟨[]⟩
          ([] ++ (YatayStatement.expressionStatement (.binary (.literal (.vNumber (.fin 1)))
              slashToken (.literal (.vNumber (.fin 0))))) ::
            [.expressionStatement (.literal (.vNumber (.fin 2)))])).1.hadRuntimeError =
          true) :=
  ⟨⟨rfl, rfl⟩,
    runtimeErrorAbortsOnce ⟨false, false, []⟩ ⟨[]⟩ ⟨[]⟩ []
      [.expressionStatement (.literal (.vNumber (.fin 2)))]
      (.expressionStatement (.binary (.literal (.vNumber (.fin 1))) slashToken
        (.literal (.vNumber (.fin 0)))))
      [] ⟨slashToken, divisorMessage⟩ rfl rfl⟩

/-- Property: a token list contains no `EndOfFile` token. -/
def noEofTokens (l : List YatayToken) : Prop :=
  ∀ t ∈ l, t.kind ≠ .endOfFile

/-- `advance()` does not touch the token list. -/
theorem tokens_advanceState (st : ScannerState) :
    st.advanceState.tokens = st.tokens := rfl

/-- `announceError` does not touch the token list. -/
theorem tokens_announceError (st : ScannerState) (m : String) :
    (st.announceError m).tokens = st.tokens := rfl

/-- `match(...)` does not touch the token list. -/
theorem tokens_matchChar (st : ScannerState) (c : Char) :
    ((st.matchChar c).2).tokens = st.tokens := by
  unfold ScannerState.matchChar
  split <;> rfl

/-- `addToken` appends exactly one token. -/
theorem tokens_addToken (st : ScannerState) (k : YatayTokenKind) (lit : YatayLiteral) :
    (st.addToken k lit).tokens =
      st.tokens ++ [⟨k, ⟨st.lexemeChars⟩, lit, st.currentLine⟩] := rfl

/-- `consumeLineComment` does not touch the token list. -/
theorem tokens_consumeLineComment :
    ∀ (fuel : Nat) (st : ScannerState),
      (consumeLineComment fuel st).tokens = st.tokens := by
  intro fuel
  induction fuel with
  | zero => intro st; rfl
  | succ f ih =>
      intro st
      unfold consumeLineComment
      split
      · exact ih st.advanceState
      · rfl

/-- The string-scanning loop does not touch the token list. -/
theorem tokens_finishStringLoop :
    ∀ (fuel : Nat) (st : ScannerState),
      (finishStringLoop fuel st).tokens = st.tokens := by
  intro fuel
  induction fuel with
  | zero => intro st; rfl
  | succ f ih =>
      intro st
      unfold finishStringLoop
      split
      · exact ih st.advanceState
      · rfl

/-- `consumeInteger` does not touch the token list. -/
theorem tokens_consumeInteger :
    ∀ (fuel : Nat) (st : ScannerState),
      (consumeInteger fuel st).tokens = st.tokens := by
  intro fuel
  induction fuel with
  | zero => intro st; rfl
  | succ f ih =>
      intro st
      unfold consumeInteger
      split
      · split <;> exact ih _
      · rfl

/-- `consumeDecimalSeparator` does not touch the token list. -/
theorem tokens_consumeDecimalSeparator (st : ScannerState) :
    (consumeDecimalSeparator st).tokens = st.tokens := by
  unfold consumeDecimalSeparator
  dsimp only
  split <;> split <;> rfl

/-- The number-consumption phase does not touch the token list. -/
theorem tokens_consumeNumberBody (fuel : Nat) (st : ScannerState) :
    (consumeNumberBody fuel st).tokens = st.tokens := by
  unfold consumeNumberBody
  dsimp only
  split
  · rw [tokens_consumeInteger, tokens_consumeDecimalSeparator, tokens_consumeInteger]
  · rw [tokens_consumeInteger]

/-- The identifier-scanning loop does not touch the token list. -/
theorem tokens_finishIdentifierLoop :
    ∀ (fuel : Nat) (st : ScannerState),
      (finishIdentifierLoop fuel st).tokens = st.tokens := by
  intro fuel
  induction fuel with
  | zero => intro st; rfl
  | succ f ih =>
      intro st
      unfold finishIdentifierLoop
      split
      · exact ih st.advanceState
      · rfl

/-- Appending one non-`EndOfFile` token preserves `noEofTokens`. -/
theorem noEofTokens_append (l : List YatayToken) (t : YatayToken)
    (h : noEofTokens l) (ht : t.kind ≠ .endOfFile) :
    noEofTokens (l ++ [t]) := by
  intro u hu
  rcases List.mem_append.mp hu with h1 | h2
  · exact h u h1
  · rw [List.mem_singleton.mp h2]
    exact ht

/-- The kind of a freshly built token is its kind field. -/
theorem kind_mk_ne_eof (k : YatayTokenKind) (lex : String) (lit : YatayLiteral)
    (line : Nat) (hk : k ≠ .endOfFile) :
    (⟨k, lex, lit, line⟩ : YatayToken).kind ≠ .endOfFile := hk

/-- A lookup in a table whose values avoid `EndOfFile` cannot produce
`EndOfFile` (with `Identifier` as the default). -/
theorem lookup_getD_ne_eof (l : List (String × YatayTokenKind)) (s : String)
    (h : ∀ p ∈ l, p.2 ≠ YatayTokenKind.endOfFile) :
    ((l.lookup s).getD .identifier) ≠ .endOfFile := by
  induction l with
  | nil => intro hc; cases hc
  | cons a l ih =>
      simp only [List.lookup]
      cases hab : s == a.1 with
      | true =>
          simp only [Option.getD_some]
          exact h a (List.mem_cons_self a l)
      | false =>
          exact ih fun p hp => h p (List.mem_cons_of_mem a hp)

/-- Every kind the keyword table can produce is distinct from
`EndOfFile`. -/
theorem keywordKind_ne_eof (s : String) :
    (keywordMap.lookup s).getD .identifier ≠ .endOfFile :=
  lookup_getD_ne_eof keywordMap s (by decide)

/-- `finishString` emits no `EndOfFile` token. -/
theorem noEof_finishString (st : ScannerState) (h : noEofTokens st.tokens) :
    noEofTokens (finishString st).tokens := by
  unfold finishString
  dsimp only
  split
  · rw [tokens_announceError, tokens_finishStringLoop]
    exact h
  · rw [tokens_addToken, tokens_advanceState, tokens_finishStringLoop]
    exact noEofTokens_append _ _ h (kind_mk_ne_eof _ _ _ _ (by decide))

/-- `finishNumber` emits no `EndOfFile` token. -/
theorem noEof_finishNumber (st : ScannerState) (h : noEofTokens st.tokens) :
    noEofTokens (finishNumber st).tokens := by
  unfold finishNumber validateNumberIsRepresentable
  dsimp only
  split <;> split <;>
    · rw [tokens_addToken]
      refine noEofTokens_append _ _ ?_ (kind_mk_ne_eof _ _ _ _ (by decide))
      simp only [tokens_announceError, tokens_consumeNumberBody]
      exact h

/-- `finishIdentifier` emits no `EndOfFile` token. -/
theorem noEof_finishIdentifier (st : ScannerState) (h : noEofTokens st.tokens) :
    noEofTokens (finishIdentifier st).tokens := by
  unfold finishIdentifier
  dsimp only
  rw [tokens_addToken]
  refine noEofTokens_append _ _ ?_ ?_
  · rw [tokens_finishIdentifierLoop]
    exact h
  · exact keywordKind_ne_eof _

set_option maxHeartbeats 1000000 in
/-- The `scanToken` dispatch emits no `EndOfFile` token. -/
theorem noEof_scanTokenDispatch (c : Char) (s : ScannerState)
    (h : noEofTokens s.tokens) :
    noEofTokens (scanTokenDispatch c s).tokens := by
  unfold scanTokenDispatch
  split
  · rw [tokens_addToken]
    exact noEofTokens_append _ _ h (kind_mk_ne_eof _ _ _ _ (by decide))
  · rw [tokens_addToken]
    exact noEofTokens_append _ _ h (kind_mk_ne_eof _ _ _ _ (by decide))
  · rw [tokens_addToken]
    exact noEofTokens_append _ _ h (kind_mk_ne_eof _ _ _ _ (by decide))
  · rw [tokens_addToken]
    exact noEofTokens_append _ _ h (kind_mk_ne_eof _ _ _ _ (by decide))
  · rw [tokens_addToken]
    exact noEofTokens_append _ _ h (kind_mk_ne_eof _ _ _ _ (by decide))
  · rw [tokens_addToken]
    exact noEofTokens_append _ _ h (kind_mk_ne_eof _ _ _ _ (by decide))
  · rw [tokens_addToken]
    exact noEofTokens_append _ _ h (kind_mk_ne_eof _ _ _ _ (by decide))
  · rw [tokens_addToken]
    exact noEofTokens_append _ _ h (kind_mk_ne_eof _ _ _ _ (by decide))
  · dsimp only
    split
    · rw [tokens_consumeLineComment, tokens_matchChar]
      exact h
    · rw [tokens_addToken]
      refine noEofTokens_append _ _ ?_ (kind_mk_ne_eof _ _ _ _ (by decide))
      simp only [tokens_matchChar]
      exact h
  · rw [tokens_addToken]
    exact noEofTokens_append _ _ h (kind_mk_ne_eof _ _ _ _ (by decide))
  · rw [tokens_addToken]
    exact noEofTokens_append _ _ h (kind_mk_ne_eof _ _ _ _ (by decide))
  · rw [tokens_addToken]
    exact noEofTokens_append _ _ h (kind_mk_ne_eof _ _ _ _ (by decide))
  · rw [tokens_addToken]
    exact noEofTokens_append _ _ h (kind_mk_ne_eof _ _ _ _ (by decide))
  · rw [tokens_addToken]
    exact noEofTokens_append _ _ h (kind_mk_ne_eof _ _ _ _ (by decide))
  · dsimp only
    split
    · rw [tokens_addToken]
      refine noEofTokens_append _ _ ?_ (kind_mk_ne_eof _ _ _ _ (by decide))
      simp only [tokens_matchChar]
      exact h
    · rw [tokens_addToken]
      refine noEofTokens_append _ _ ?_ (kind_mk_ne_eof _ _ _ _ (by decide))
      simp only [tokens_matchChar]
      exact h
  · dsimp only
    split
    · rw [tokens_addToken]
      refine noEofTokens_append _ _ ?_ (kind_mk_ne_eof _ _ _ _ (by decide))
      simp only [tokens_matchChar]
      exact h
    · rw [tokens_addToken]
      refine noEofTokens_append _ _ ?_ (kind_mk_ne_eof _ _ _ _ (by decide))
      simp only [tokens_matchChar]
      exact h
  · dsimp only
    split
    · rw [tokens_addToken]
      refine noEofTokens_append _ _ ?_ (kind_mk_ne_eof _ _ _ _ (by decide))
      simp only [tokens_matchChar]
      exact h
    · try dsimp only
      split
      · rw [tokens_addToken]
        refine noEofTokens_append _ _ ?_ (kind_mk_ne_eof _ _ _ _ (by decide))
        simp only [tokens_matchChar]
        exact h
      · rw [tokens_addToken]
        refine noEofTokens_append _ _ ?_ (kind_mk_ne_eof _ _ _ _ (by decide))
        simp only [tokens_matchChar]
        exact h
  · dsimp only
    split
    · rw [tokens_addToken]
      refine noEofTokens_append _ _ ?_ (kind_mk_ne_eof _ _ _ _ (by decide))
      simp only [tokens_matchChar]
      exact h
    · rw [tokens_addToken]
      refine noEofTokens_append _ _ ?_ (kind_mk_ne_eof _ _ _ _ (by decide))
      simp only [tokens_matchChar]
      exact h
  · exact h
  · exact h
  · exact h
  · exact h
  · exact noEof_finishString _ h
  · split
    · exact noEof_finishNumber _ h
    · split
      · exact noEof_finishIdentifier _ h
      · rw [tokens_announceError]
        exact h

/-- `scanToken` emits no `EndOfFile` token. -/
theorem noEof_scanToken (st : ScannerState) (h : noEofTokens st.tokens) :
    noEofTokens (scanToken st).tokens := by
  unfold scanToken
  exact noEof_scanTokenDispatch _ _ h

/-- The scan loop emits no `EndOfFile` token. -/
theorem noEof_scanLoop :
    ∀ (fuel : Nat) (st : ScannerState), noEofTokens st.tokens →
      noEofTokens (scanLoop fuel st).tokens := by
  intro fuel
  induction fuel with
  | zero => intro st h; exact h
  | succ f ih =>
      intro st h
      unfold scanLoop
      split
      · exact h
      · exact ih _ (noEof_scanToken _ h)

/-- C6: for every source string, the token list `scanTokens` returns
consists of tokens none of which is `EndOfFile`, followed by exactly one
final `EndOfFile` token in the last position. -/
theorem scanTokensEndOfFileInvariant (sourceCode : List Char) :
    ∃ pre lastTok, (scanTokens sourceCode).tokens = pre ++ [lastTok]
      ∧ lastTok.kind = .endOfFile
      ∧ ∀ t ∈ pre, t.kind ≠ .endOfFile := by
  unfold scanTokens
  dsimp only
  refine ⟨_, _, rfl, rfl, ?_⟩
  exact noEof_scanLoop _ _ (by intro t ht; cases ht)
/-- The number of "magnitude too large" errors in an error list. -/
def countMagnitude (l : List (Nat × String)) : Nat :=
  l.countP fun e => decide (e.2 = magnitudeMessage)

/-- Announcing an error with a different message does not change the
magnitude-error count. -/
theorem countMagnitude_announceError_ne (st : ScannerState) (m : String)
    (h : m ≠ magnitudeMessage) :
    countMagnitude (st.announceError m).errors = countMagnitude st.errors := by
  unfold countMagnitude ScannerState.announceError
  rw [List.countP_append]
  simp [h]

/-- Announcing the magnitude error increments the magnitude-error
count. -/
theorem countMagnitude_announceError_eq (st : ScannerState) :
    countMagnitude (st.announceError magnitudeMessage).errors =
      countMagnitude st.errors + 1 := by
  unfold countMagnitude ScannerState.announceError
  rw [List.countP_append]
  simp

/-- `consumeInteger` announces no magnitude error. -/
theorem countMagnitude_consumeInteger :
    ∀ (fuel : Nat) (st : ScannerState),
      countMagnitude (consumeInteger fuel st).errors = countMagnitude st.errors := by
  intro fuel
  induction fuel with
  | zero => intro st; rfl
  | succ f ih =>
      intro st
      unfold consumeInteger
      split
      · split
        · rw [ih]
          show countMagnitude (ScannerState.announceError _ _).errors = _
          exact countMagnitude_announceError_ne _ _ (by decide)
        · exact ih _
      · rfl

/-- `advance()` does not touch the error list. -/
theorem errors_advanceState (st : ScannerState) :
    st.advanceState.errors = st.errors := rfl

/-- `addToken` does not touch the error list. -/
theorem errors_addToken (st : ScannerState) (k : YatayTokenKind) (lit : YatayLiteral) :
    (st.addToken k lit).errors = st.errors := rfl

/-- `announceError` does not touch the current lexeme. -/
theorem lexemeChars_announceError (st : ScannerState) (m : String) :
    (st.announceError m).lexemeChars = st.lexemeChars := rfl

/-- `consumeDecimalSeparator` announces no magnitude error. -/
theorem countMagnitude_consumeDecimalSeparator (st : ScannerState) :
    countMagnitude (consumeDecimalSeparator st).errors = countMagnitude st.errors := by
  unfold consumeDecimalSeparator
  dsimp only
  have h1 := countMagnitude_announceError_ne (m := separatorBeforeDecimalMessage)
  have h2 := countMagnitude_announceError_ne (m := separatorAfterDecimalMessage)
  split <;> split <;>
    (show countMagnitude (ScannerState.advanceState _).errors = _
     rw [errors_advanceState]
     try rw [h2 _ (by decide)]
     try rw [h1 _ (by decide)]
     try rfl)

/-- The number-consumption phase announces no magnitude error. -/
theorem countMagnitude_consumeNumberBody (fuel : Nat) (st : ScannerState) :
    countMagnitude (consumeNumberBody fuel st).errors = countMagnitude st.errors := by
  unfold consumeNumberBody
  dsimp only
  split
  · rw [countMagnitude_consumeInteger, countMagnitude_consumeDecimalSeparator,
      countMagnitude_consumeInteger]
  · rw [countMagnitude_consumeInteger]

/-- `validateNumberIsRepresentable` announces the magnitude error exactly
when the value lies outside the safe-integer range. -/
theorem countMagnitude_validate (v : ℚ) (s : ScannerState) :
    countMagnitude (validateNumberIsRepresentable v s).errors =
      countMagnitude s.errors +
        (if v < minSafeInteger ∨ v > maxSafeInteger then 1 else 0) := by
  unfold validateNumberIsRepresentable
  by_cases hv : v < minSafeInteger ∨ v > maxSafeInteger
  · rw [if_pos (by simpa using hv), if_pos hv, countMagnitude_announceError_eq]
  · rw [if_neg (by simpa using hv), if_neg hv, Nat.add_zero]

/-- C2 (amended): `finishNumber` announces the "magnitude too large to
represent in memory" error exactly once when the parsed value of the
number literal lies outside the inclusive safe-integer range
`[-(2^53 - 1), 2^53 - 1]` (`Number.MIN_SAFE_INTEGER` to
`Number.MAX_SAFE_INTEGER`), and not at all otherwise — the inclusive
bound is `2^53 - 1`, not `2^53`. -/
theorem finishNumberMagnitudeCheck (st : ScannerState) :
    countMagnitude (finishNumber st).errors =
      countMagnitude st.errors +
        (if parseDecimalValue (cleanNumberLexeme
              (consumeNumberBody (scannerFuel st) st).lexemeChars) < -(2 ^ 53 - 1)
            ∨ parseDecimalValue (cleanNumberLexeme
              (consumeNumberBody (scannerFuel st) st).lexemeChars) > 2 ^ 53 - 1
          then 1 else 0) := by
  unfold finishNumber
  dsimp only
  split
  · rw [errors_addToken, countMagnitude_validate,
      lexemeChars_announceError,
      countMagnitude_announceError_ne _ _ (by decide : trailingSeparatorMessage ≠ magnitudeMessage),
      countMagnitude_consumeNumberBody]
    rfl
  · rw [errors_addToken, countMagnitude_validate, countMagnitude_consumeNumberBody]
    rfl

section

attribute [local semireducible] Rat.add Rat.mul Rat.sub Rat.inv

/-- C2, counterexample: the 17-digit literal `9007199254740992`, whose
parsed value is exactly `2^53`, lies inside the claim's inclusive range
`[-2^53, 2^53]`, yet scanning it does issue the "magnitude too large to
represent in memory" error (the code's bound is `2^53 - 1`). -/
theorem scanMagnitudeBoundaryCounterexample :
    ((scanTokens ("9007199254740992".toList)).errors.map Prod.snd =
      [magnitudeMessage])
    ∧ ((scanTokens ("9007199254740992".toList)).tokens.map YatayToken.literal =
      [.numLiteral 9007199254740992, .nullLiteral])
    ∧ ¬ ((9007199254740992 : ℚ) < -(2 ^ 53) ∨ (9007199254740992 : ℚ) > 2 ^ 53) := by
  refine ⟨by decide, by decide, by decide⟩

end

/-! ## Parser termination and synchronization -/

/-- An `EndOfFile` token lies at or after the cursor — the well-formedness
invariant under which the parser runs (`scanTokens` always ends the list
with one). -/
def EofAhead (tokens : List YatayToken) (idx : Nat) : Prop :=
  ∃ j, j < tokens.length ∧ idx ≤ j ∧ (tokens.getD j eofFallback).kind = .endOfFile

instance (tokens : List YatayToken) (idx : Nat) : Decidable (EofAhead tokens idx) := by
  unfold EofAhead
  infer_instance

/-- Under `EofAhead` the cursor is in range. -/
theorem EofAhead.lt_length {tokens : List YatayToken} {idx : Nat}
    (h : EofAhead tokens idx) : idx < tokens.length := by
  obtain ⟨j, hj, hij, -⟩ := h
  omega

/-- When the current token is not `EndOfFile`, the `EndOfFile` witness
lies strictly ahead. -/
theorem EofAhead.succ_of_not_eof {tokens : List YatayToken} {idx : Nat}
    (h : EofAhead tokens idx)
    (hcur : (currentToken tokens idx).kind ≠ .endOfFile) :
    EofAhead tokens (idx + 1) := by
  obtain ⟨j, hj, hij, hkind⟩ := h
  refine ⟨j, hj, ?_, hkind⟩
  rcases Nat.eq_or_lt_of_le hij with rfl | hlt
  · exact absurd hkind hcur
  · omega

/-- `advance()` preserves `EofAhead`. -/
theorem advanceIdx_EofAhead {tokens : List YatayToken} {idx : Nat}
    (h : EofAhead tokens idx) : EofAhead tokens (advanceIdx tokens idx) := by
  unfold advanceIdx
  split
  · exact h
  · next hend =>
      refine h.succ_of_not_eof ?_
      simpa [parserIsAtEnd] using hend

/-- `advance()` only stays put at the `EndOfFile` token. -/
theorem advanceIdx_of_not_eof {tokens : List YatayToken} {idx : Nat}
    (hcur : (currentToken tokens idx).kind ≠ .endOfFile) :
    advanceIdx tokens idx = idx + 1 := by
  unfold advanceIdx
  rw [if_neg]
  simpa [parserIsAtEnd] using hcur

/-- The two possible outcomes of `matchAny` on a kind list that does not
contain `EndOfFile`. -/
theorem matchAny_spec (tokens : List YatayToken) (kinds : List YatayTokenKind)
    (idx : Nat) (hno : kinds.contains YatayTokenKind.endOfFile = false)
    (h : EofAhead tokens idx) :
    matchAny tokens kinds idx = (false, idx)
    ∨ (matchAny tokens kinds idx = (true, idx + 1) ∧ EofAhead tokens (idx + 1)) := by
  unfold matchAny
  split
  · next hc =>
      right
      have hcur : (currentToken tokens idx).kind ≠ .endOfFile := by
        intro he
        rw [he] at hc
        rw [hc] at hno
        cases hno
      rw [advanceIdx_of_not_eof hcur]
      exact ⟨rfl, h.succ_of_not_eof hcur⟩
  · left
    rfl

/-- The two possible outcomes of `consume` for an expected kind other
than `EndOfFile`. -/
theorem consume_spec (tokens : List YatayToken) (kind : YatayTokenKind)
    (msg : String) (idx : Nat) (hk : kind ≠ .endOfFile) (h : EofAhead tokens idx) :
    consume tokens kind msg idx = .err (currentToken tokens idx) msg idx
    ∨ (∃ t, consume tokens kind msg idx = .ok t (idx + 1) ∧ EofAhead tokens (idx + 1)) := by
  unfold consume
  split
  · next hc =>
      right
      have hcur : (currentToken tokens idx).kind ≠ .endOfFile := by
        rw [hc]; exact hk
      unfold advanceP
      rw [advanceIdx_of_not_eof hcur]
      exact ⟨_, rfl, h.succ_of_not_eof hcur⟩
  · left
    rfl

/-- Strict progress: the parse outcome is not fuel exhaustion, its final
index advanced past `idx` on success (never moving backwards on error),
and the `EofAhead` invariant is preserved. -/
def ParseRes.Advances {α : Type} (tokens : List YatayToken) (idx : Nat) :
    ParseRes α → Prop
  | .ok _ i => idx < i ∧ EofAhead tokens i
  | .err _ _ i => idx ≤ i ∧ EofAhead tokens i
  | .out => False

/-- Lax progress: like `ParseRes.Advances` but success may stand still. -/
def ParseRes.AdvancesLax {α : Type} (tokens : List YatayToken) (idx : Nat) :
    ParseRes α → Prop
  | .ok _ i => idx ≤ i ∧ EofAhead tokens i
  | .err _ _ i => idx ≤ i ∧ EofAhead tokens i
  | .out => False

/-- The conjunction of fuel-sufficiency statements for the mutually
recursive expression parsers, at a given fuel. -/
def ExprSuff (tokens : List YatayToken) (fuel : Nat) : Prop :=
  (∀ idx, EofAhead tokens idx → 8 * (tokens.length - idx) + 3 ≤ fuel →
    (parsePrimary tokens fuel idx).Advances tokens idx)
  ∧ (∀ idx, EofAhead tokens idx → 8 * (tokens.length - idx) + 4 ≤ fuel →
    (parseUnary tokens fuel idx).Advances tokens idx)
  ∧ (∀ e idx, EofAhead tokens idx → 8 * (tokens.length - idx) + 1 ≤ fuel →
    (factorLoop tokens fuel e idx).AdvancesLax tokens idx)
  ∧ (∀ idx, EofAhead tokens idx → 8 * (tokens.length - idx) + 5 ≤ fuel →
    (parseFactor tokens fuel idx).Advances tokens idx)
  ∧ (∀ e idx, EofAhead tokens idx → 8 * (tokens.length - idx) + 1 ≤ fuel →
    (termLoop tokens fuel e idx).AdvancesLax tokens idx)
  ∧ (∀ idx, EofAhead tokens idx → 8 * (tokens.length - idx) + 6 ≤ fuel →
    (parseTerm tokens fuel idx).Advances tokens idx)
  ∧ (∀ e idx, EofAhead tokens idx → 8 * (tokens.length - idx) + 1 ≤ fuel →
    (comparisonLoop tokens fuel e idx).AdvancesLax tokens idx)
  ∧ (∀ idx, EofAhead tokens idx → 8 * (tokens.length - idx) + 7 ≤ fuel →
    (parseComparison tokens fuel idx).Advances tokens idx)
  ∧ (∀ idx, EofAhead tokens idx → 8 * (tokens.length - idx) + 8 ≤ fuel →
    (parseExpression tokens fuel idx).Advances tokens idx)

/-- Lax progress from a later start index. -/
theorem ParseRes.AdvancesLax.weaken_start {α : Type} {tokens : List YatayToken}
    {i j : Nat} {r : ParseRes α} (h : r.AdvancesLax tokens j) (hij : i ≤ j) :
    r.AdvancesLax tokens i := by
  cases r with
  | ok a k => exact ⟨Nat.le_trans hij h.1, h.2⟩
  | err t m k => exact ⟨Nat.le_trans hij h.1, h.2⟩
  | out => exact h.elim

/-- Lax progress from a strictly earlier start index is strict
progress. -/
theorem ParseRes.AdvancesLax.strict {α : Type} {tokens : List YatayToken}
    {i j : Nat} {r : ParseRes α} (h : r.AdvancesLax tokens j) (hij : i < j) :
    r.Advances tokens i := by
  cases r with
  | ok a k => exact ⟨Nat.lt_of_lt_of_le hij h.1, h.2⟩
  | err t m k => exact ⟨Nat.le_trans (Nat.le_of_lt hij) h.1, h.2⟩
  | out => exact h.elim

/-- The fuel-sufficiency of the expression parsers: with fuel at least
`8 · (remaining tokens) + rank` the parser never exhausts its fuel, its
cursor never moves backwards (and strictly advances on success), and an
`EndOfFile` token stays ahead of the cursor. -/
theorem exprSuff (tokens : List YatayToken) : ∀ fuel, ExprSuff tokens fuel := by
  intro fuel
  induction fuel using Nat.strong_induction_on with
  | _ fuel ih =>
  match fuel with
  | 0 =>
      refine ⟨?_, ?_, ?_, ?_, ?_, ?_, ?_, ?_, ?_⟩ <;> (intros; omega)
  | f + 1 =>
      obtain ⟨IHprim, IHun, IHfl, IHfac, IHtl, IHterm, IHcl, IHcmp, IHexpr⟩ :=
        ih f (Nat.lt_succ_self f)
      refine ⟨?_, ?_, ?_, ?_, ?_, ?_, ?_, ?_, ?_⟩
      -- parsePrimary
      · intro idx hEof hb
        have hlen := hEof.lt_length
        simp only [parsePrimary]
        rcases matchAny_spec tokens [.keywordVerdadero] idx (by decide) hEof with
          hm1 | hp1
        case inr =>
          obtain ⟨hm1, hE1⟩ := hp1
          rw [hm1]
          exact ⟨Nat.lt_succ_self idx, hE1⟩
        rw [hm1]
        dsimp only
        rcases matchAny_spec tokens [.keywordFalso] idx (by decide) hEof with
          hm2 | hp2
        case inr =>
          obtain ⟨hm2, hE2⟩ := hp2
          rw [hm2]
          exact ⟨Nat.lt_succ_self idx, hE2⟩
        rw [hm2]
        dsimp only
        rcases matchAny_spec tokens [.string, .number] idx (by decide) hEof with
          hm3 | hp3
        case inr =>
          obtain ⟨hm3, hE3⟩ := hp3
          rw [hm3]
          exact ⟨Nat.lt_succ_self idx, hE3⟩
        rw [hm3]
        dsimp only
        rcases matchAny_spec tokens [.identifier] idx (by decide) hEof with
          hm4 | hp4
        case inr =>
          obtain ⟨hm4, hE4⟩ := hp4
          rw [hm4]
          exact ⟨Nat.lt_succ_self idx, hE4⟩
        rw [hm4]
        dsimp only
        rcases matchAny_spec tokens [.openingParenthesis] idx (by decide) hEof with
          hm5 | hp5
        case inr =>
          obtain ⟨hm5, hE5⟩ := hp5
          rw [hm5]
          dsimp only
          have hspec := IHexpr (idx + 1) hE5 (by omega)
          cases hres : parseExpression tokens f (idx + 1) with
          | ok e i =>
              rw [hres] at hspec
              dsimp only
              simp only [ParseRes.Advances] at hspec
              rcases consume_spec tokens .closingParenthesis
                  expectClosingParenthesisMessage i (by decide) hspec.2 with hc | ⟨t, hc, hE6⟩
              · rw [hc]
                exact ⟨by omega, hspec.2⟩
              · rw [hc]
                exact ⟨by omega, hE6⟩
          | err t m i =>
              rw [hres] at hspec
              simp only [ParseRes.Advances] at hspec
              exact ⟨by omega, hspec.2⟩
          | out =>
              rw [hres] at hspec
              exact hspec.elim
        rw [hm5]
        dsimp only
        exact ⟨Nat.le_refl idx, hEof⟩
      -- parseUnary
      · intro idx hEof hb
        have hlen := hEof.lt_length
        simp only [parseUnary]
        rcases matchAny_spec tokens unaryOperatorKinds idx (by decide) hEof with
          hm | ⟨hm, hE1⟩
        case inl =>
          rw [hm]
          dsimp only
          exact IHprim idx hEof (by omega)
        rw [hm]
        dsimp only
        have hspec := IHun (idx + 1) hE1 (by omega)
        cases hres : parseUnary tokens f (idx + 1) with
        | ok a i =>
            rw [hres] at hspec
            simp only [ParseRes.Advances] at hspec
            exact ⟨by omega, hspec.2⟩
        | err t m i =>
            rw [hres] at hspec
            simp only [ParseRes.Advances] at hspec
            exact ⟨by omega, hspec.2⟩
        | out =>
            rw [hres] at hspec
            exact hspec.elim
      -- factorLoop
      · intro e idx hEof hb
        have hlen := hEof.lt_length
        simp only [factorLoop]
        rcases matchAny_spec tokens factorOperatorKinds idx (by decide) hEof with
          hm | ⟨hm, hE1⟩
        case inl =>
          rw [hm]
          exact ⟨Nat.le_refl idx, hEof⟩
        rw [hm]
        dsimp only
        have hspec := IHun (idx + 1) hE1 (by omega)
        cases hres : parseUnary tokens f (idx + 1) with
        | ok r i =>
            rw [hres] at hspec
            simp only [ParseRes.Advances] at hspec
            have hspec2 := IHfl (.binary e (previousToken tokens (idx + 1)) r) i
              hspec.2 (by omega)
            exact hspec2.weaken_start (by omega)
        | err t m i =>
            rw [hres] at hspec
            simp only [ParseRes.Advances] at hspec
            exact ⟨by omega, hspec.2⟩
        | out =>
            rw [hres] at hspec
            exact hspec.elim
      -- parseFactor
      · intro idx hEof hb
        have hlen := hEof.lt_length
        simp only [parseFactor]
        have hspec := IHun idx hEof (by omega)
        cases hres : parseUnary tokens f idx with
        | ok e i =>
            rw [hres] at hspec
            simp only [ParseRes.Advances] at hspec
            have hspec2 := IHfl e i hspec.2 (by omega)
            exact hspec2.strict hspec.1
        | err t m i =>
            rw [hres] at hspec
            simp only [ParseRes.Advances] at hspec
            exact ⟨hspec.1, hspec.2⟩
        | out =>
            rw [hres] at hspec
            exact hspec.elim
      -- termLoop
      · intro e idx hEof hb
        have hlen := hEof.lt_length
        simp only [termLoop]
        rcases matchAny_spec tokens termOperatorKinds idx (by decide) hEof with
          hm | ⟨hm, hE1⟩
        case inl =>
          rw [hm]
          exact ⟨Nat.le_refl idx, hEof⟩
        rw [hm]
        dsimp only
        have hspec := IHfac (idx + 1) hE1 (by omega)
        cases hres : parseFactor tokens f (idx + 1) with
        | ok r i =>
            rw [hres] at hspec
            simp only [ParseRes.Advances] at hspec
            have hspec2 := IHtl (.binary e (previousToken tokens (idx + 1)) r) i
              hspec.2 (by omega)
            exact hspec2.weaken_start (by omega)
        | err t m i =>
            rw [hres] at hspec
            simp only [ParseRes.Advances] at hspec
            exact ⟨by omega, hspec.2⟩
        | out =>
            rw [hres] at hspec
            exact hspec.elim
      -- parseTerm
      · intro idx hEof hb
        have hlen := hEof.lt_length
        simp only [parseTerm]
        have hspec := IHfac idx hEof (by omega)
        cases hres : parseFactor tokens f idx with
        | ok e i =>
            rw [hres] at hspec
            simp only [ParseRes.Advances] at hspec
            have hspec2 := IHtl e i hspec.2 (by omega)
            exact hspec2.strict hspec.1
        | err t m i =>
            rw [hres] at hspec
            simp only [ParseRes.Advances] at hspec
            exact ⟨hspec.1, hspec.2⟩
        | out =>
            rw [hres] at hspec
            exact hspec.elim
      -- comparisonLoop
      · intro e idx hEof hb
        have hlen := hEof.lt_length
        simp only [comparisonLoop]
        rcases matchAny_spec tokens comparisonOperatorKinds idx (by decide) hEof with
          hm | ⟨hm, hE1⟩
        case inl =>
          rw [hm]
          exact ⟨Nat.le_refl idx, hEof⟩
        rw [hm]
        dsimp only
        have hspec := IHterm (idx + 1) hE1 (by omega)
        cases hres : parseTerm tokens f (idx + 1) with
        | ok r i =>
            rw [hres] at hspec
            simp only [ParseRes.Advances] at hspec
            have hspec2 := IHcl (.binary e (previousToken tokens (idx + 1)) r) i
              hspec.2 (by omega)
            exact hspec2.weaken_start (by omega)
        | err t m i =>
            rw [hres] at hspec
            simp only [ParseRes.Advances] at hspec
            exact ⟨by omega, hspec.2⟩
        | out =>
            rw [hres] at hspec
            exact hspec.elim
      -- parseComparison
      · intro idx hEof hb
        have hlen := hEof.lt_length
        simp only [parseComparison]
        have hspec := IHterm idx hEof (by omega)
        cases hres : parseTerm tokens f idx with
        | ok e i =>
            rw [hres] at hspec
            simp only [ParseRes.Advances] at hspec
            have hspec2 := IHcl e i hspec.2 (by omega)
            exact hspec2.strict hspec.1
        | err t m i =>
            rw [hres] at hspec
            simp only [ParseRes.Advances] at hspec
            exact ⟨hspec.1, hspec.2⟩
        | out =>
            rw [hres] at hspec
            exact hspec.elim
      -- parseExpression
      · intro idx hEof hb
        have hlen := hEof.lt_length
        simp only [parseExpression]
        exact IHcmp idx hEof (by omega)

/-- The stopping condition of `synchronize`'s loop at cursor `k`: the
`EndOfFile` token is reached, the previously consumed token was `.`, or
the current token is a statement-starter keyword. -/
def SyncStop (tokens : List YatayToken) (k : Nat) : Prop :=
  (currentToken tokens k).kind = .endOfFile
  ∨ (previousToken tokens k).kind = .dot
  ∨ (currentToken tokens k).kind ∈ synchronizationTokenKinds

instance (tokens : List YatayToken) (k : Nat) : Decidable (SyncStop tokens k) := by
  unfold SyncStop
  infer_instance

/-- The discarding loop of `synchronize` stops exactly at the first
index, at or after its starting point, satisfying the stopping
condition. -/
theorem synchronizeLoop_spec (tokens : List YatayToken) :
    ∀ (fuel idx : Nat), EofAhead tokens idx →
      8 * (tokens.length - idx) + 1 ≤ fuel →
      ∃ j, synchronizeLoop tokens fuel idx = some j ∧ idx ≤ j
        ∧ EofAhead tokens j ∧ SyncStop tokens j
        ∧ ∀ k, idx ≤ k → k < j → ¬ SyncStop tokens k := by
  intro fuel
  induction fuel with
  | zero => intro idx h hb; omega
  | succ f ih =>
      intro idx hEof hb
      have hlen := hEof.lt_length
      unfold synchronizeLoop
      by_cases h1 : parserIsAtEnd tokens idx = true
      · rw [if_pos h1]
        refine ⟨idx, rfl, Nat.le_refl idx, hEof, .inl ?_, fun k hk1 hk2 => by omega⟩
        simpa [parserIsAtEnd] using h1
      · rw [if_neg h1]
        by_cases h2 : (previousToken tokens idx).kind = .dot
        · rw [if_pos h2]
          exact ⟨idx, rfl, Nat.le_refl idx, hEof, .inr (.inl h2),
            fun k hk1 hk2 => by omega⟩
        · rw [if_neg h2]
          by_cases h3 : synchronizationTokenKinds.contains (currentToken tokens idx).kind = true
          · rw [if_pos h3]
            refine ⟨idx, rfl, Nat.le_refl idx, hEof, .inr (.inr ?_),
              fun k hk1 hk2 => by omega⟩
            simpa using h3
          · rw [if_neg h3]
            have hcur : (currentToken tokens idx).kind ≠ .endOfFile := by
              simpa [parserIsAtEnd] using h1
            have hnostop : ¬ SyncStop tokens idx := by
              unfold SyncStop
              push_neg
              refine ⟨hcur, h2, ?_⟩
              simpa using h3
            rw [advanceIdx_of_not_eof hcur]
            obtain ⟨j, hj, hij, hEj, hstop, hmin⟩ :=
              ih (idx + 1) (hEof.succ_of_not_eof hcur) (by omega)
            refine ⟨j, hj, by omega, hEj, hstop, ?_⟩
            intro k hk1 hk2
            rcases Nat.eq_or_lt_of_le hk1 with rfl | hlt
            · exact hnostop
            · exact hmin k hlt hk2

/-- `synchronize` advances at least once (unless already at the
`EndOfFile` token) and then stops exactly at the first stopping index. -/
theorem synchronize_spec (tokens : List YatayToken) (fuel idx : Nat)
    (hEof : EofAhead tokens idx) (hb : 8 * (tokens.length - idx) + 2 ≤ fuel) :
    ∃ j, synchronize tokens fuel idx = some j
      ∧ advanceIdx tokens idx ≤ j
      ∧ EofAhead tokens j ∧ SyncStop tokens j
      ∧ ∀ k, advanceIdx tokens idx ≤ k → k < j → ¬ SyncStop tokens k := by
  have hlen := hEof.lt_length
  match fuel with
  | 0 => omega
  | f + 1 =>
      unfold synchronize
      have hadv : advanceIdx tokens idx ≤ idx + 1 := by
        unfold advanceIdx
        split <;> omega
      have hadv2 : idx ≤ advanceIdx tokens idx := by
        unfold advanceIdx
        split <;> omega
      obtain ⟨j, hj, hij, hEj, hstop, hmin⟩ :=
        synchronizeLoop_spec tokens f (advanceIdx tokens idx)
          (advanceIdx_EofAhead hEof) (by omega)
      exact ⟨j, hj, hij, hEj, hstop, hmin⟩

/-- Strict progress from an earlier start index. -/
theorem ParseRes.Advances.mono_start {α : Type} {tokens : List YatayToken}
    {i j : Nat} {r : ParseRes α} (h : r.Advances tokens j) (hij : i ≤ j) :
    r.Advances tokens i := by
  cases r with
  | ok a k => exact ⟨Nat.lt_of_le_of_lt hij h.1, h.2⟩
  | err t m k => exact ⟨Nat.le_trans hij h.1, h.2⟩
  | out => exact h.elim

/-- Fuel sufficiency for `parseExpressionStatement`. -/
theorem parseExpressionStatement_suff (tokens : List YatayToken)
    (fuel idx : Nat) (hEof : EofAhead tokens idx)
    (hb : 8 * (tokens.length - idx) + 9 ≤ fuel) :
    (parseExpressionStatement tokens fuel idx).Advances tokens idx := by
  have hlen := hEof.lt_length
  match fuel with
  | 0 => omega
  | f + 1 =>
      obtain ⟨-, -, -, -, -, -, -, -, IHexpr⟩ := exprSuff tokens f
      simp only [parseExpressionStatement]
      have hspec := IHexpr idx hEof (by omega)
      cases hres : parseExpression tokens f idx with
      | ok e i =>
          rw [hres] at hspec
          simp only [ParseRes.Advances] at hspec
          dsimp only
          rcases consume_spec tokens .dot expectDotMessage i (by decide) hspec.2 with
            hc | ⟨t, hc, hEi⟩
          · rw [hc]
            exact ⟨by omega, hspec.2⟩
          · rw [hc]
            exact ⟨by omega, hEi⟩
      | err t m i =>
          rw [hres] at hspec
          dsimp only
          exact hspec
      | out =>
          rw [hres] at hspec
          exact hspec.elim

/-- Fuel sufficiency for `parseVariableDeclaration`. -/
theorem parseVariableDeclaration_suff (tokens : List YatayToken)
    (fuel idx : Nat) (hEof : EofAhead tokens idx)
    (hb : 8 * (tokens.length - idx) + 9 ≤ fuel) :
    (parseVariableDeclaration tokens fuel idx).Advances tokens idx := by
  have hlen := hEof.lt_length
  match fuel with
  | 0 => omega
  | f + 1 =>
      obtain ⟨-, -, -, -, -, -, -, -, IHexpr⟩ := exprSuff tokens f
      simp only [parseVariableDeclaration]
      rcases consume_spec tokens .identifier expectIdentifierMessage idx
          (by decide) hEof with hc | ⟨t, hc, hE1⟩
      · rw [hc]
        exact ⟨Nat.le_refl idx, hEof⟩
      · rw [hc]
        dsimp only
        rcases matchAny_spec tokens [.assign] (idx + 1) (by decide) hE1 with
          hm | ⟨hm, hE2⟩
        · rw [hm]
          dsimp only
          rcases consume_spec tokens .dot expectDotMessage (idx + 1) (by decide) hE1 with
            hc2 | ⟨t2, hc2, hE3⟩
          · rw [hc2]
            exact ⟨by omega, hE1⟩
          · rw [hc2]
            exact ⟨by omega, hE3⟩
        · rw [hm]
          dsimp only
          have hspec := IHexpr (idx + 2) hE2 (by omega)
          cases hres : parseExpression tokens f (idx + 2) with
          | ok e i =>
              rw [hres] at hspec
              simp only [ParseRes.Advances] at hspec
              dsimp only
              rcases consume_spec tokens .dot expectDotMessage i (by decide) hspec.2 with
                hc2 | ⟨t2, hc2, hEi⟩
              · rw [hc2]
                exact ⟨by omega, hspec.2⟩
              · rw [hc2]
                exact ⟨by omega, hEi⟩
          | err t2 m i =>
              rw [hres] at hspec
              simp only [ParseRes.Advances] at hspec
              dsimp only
              exact ⟨by omega, hspec.2⟩
          | out =>
              rw [hres] at hspec
              exact hspec.elim

/-- Fuel sufficiency for `parseStatement`. -/
theorem parseStatement_suff (tokens : List YatayToken)
    (fuel idx : Nat) (hEof : EofAhead tokens idx)
    (hb : 8 * (tokens.length - idx) + 10 ≤ fuel) :
    (parseStatement tokens fuel idx).Advances tokens idx := by
  have hlen := hEof.lt_length
  match fuel with
  | 0 => omega
  | f + 1 =>
      simp only [parseStatement]
      exact parseExpressionStatement_suff tokens f idx hEof (by omega)

/-- Fuel sufficiency for the body of `parseDeclaration`. -/
theorem parseDeclarationCore_suff (tokens : List YatayToken)
    (fuel idx : Nat) (hEof : EofAhead tokens idx)
    (hb : 8 * (tokens.length - idx) + 11 ≤ fuel) :
    (parseDeclarationCore tokens fuel idx).Advances tokens idx := by
  have hlen := hEof.lt_length
  match fuel with
  | 0 => omega
  | f + 1 =>
      simp only [parseDeclarationCore]
      rcases matchAny_spec tokens [.keywordDefinir] idx (by decide) hEof with
        hm | ⟨hm, hE1⟩
      · rw [hm]
        dsimp only
        exact parseStatement_suff tokens f idx hEof (by omega)
      · rw [hm]
        dsimp only
        exact (parseVariableDeclaration_suff tokens f (idx + 1) hE1 (by omega)).mono_start
          (Nat.le_succ idx)

/-- Fuel sufficiency for `parseDeclaration`: with enough fuel it always
returns (it catches parse errors), never moves the cursor backwards, and
strictly advances whenever the current token is not `EndOfFile`. -/
theorem parseDeclaration_suff (tokens : List YatayToken)
    (fuel idx : Nat) (hEof : EofAhead tokens idx)
    (hb : 8 * (tokens.length - idx) + 12 ≤ fuel) :
    ∃ v j, parseDeclaration tokens fuel idx = .ok v j ∧ idx ≤ j
      ∧ EofAhead tokens j
      ∧ ((currentToken tokens idx).kind ≠ .endOfFile → idx < j) := by
  have hlen := hEof.lt_length
  match fuel with
  | 0 => omega
  | f + 1 =>
      simp only [parseDeclaration]
      have hspec := parseDeclarationCore_suff tokens f idx hEof (by omega)
      cases hres : parseDeclarationCore tokens f idx with
      | ok s i =>
          rw [hres] at hspec
          simp only [ParseRes.Advances] at hspec
          exact ⟨some s, i, rfl, by omega, hspec.2, fun _ => hspec.1⟩
      | err t m i =>
          rw [hres] at hspec
          simp only [ParseRes.Advances] at hspec
          obtain ⟨j, hj, hij, hEj, -, -⟩ :=
            synchronize_spec tokens f i hspec.2 (by omega)
          dsimp only
          rw [hj]
          refine ⟨none, j, rfl, ?_, hEj, ?_⟩
          · have : i ≤ advanceIdx tokens i := by
              unfold advanceIdx
              split <;> omega
            omega
          · intro hcur
            rcases Nat.eq_or_lt_of_le hspec.1 with rfl | hlt
            · rw [advanceIdx_of_not_eof hcur] at hij
              omega
            · have : i ≤ advanceIdx tokens i := by
                unfold advanceIdx
                split <;> omega
              omega
      | out =>
          rw [hres] at hspec
          exact hspec.elim

/-- Fuel sufficiency for the declaration loop of `parse`. -/
theorem declLoop_suff (tokens : List YatayToken) :
    ∀ (fuel idx : Nat), EofAhead tokens idx →
      8 * (tokens.length - idx) + 13 ≤ fuel →
      ∃ statements j, declLoop tokens fuel idx = .ok statements j := by
  intro fuel
  induction fuel using Nat.strong_induction_on with
  | _ fuel ih =>
  intro idx hEof hb
  have hlen := hEof.lt_length
  match fuel with
  | 0 => omega
  | f + 1 =>
      simp only [declLoop]
      by_cases hend : parserIsAtEnd tokens idx = true
      · rw [if_pos hend]
        exact ⟨[], idx, rfl⟩
      · rw [if_neg hend]
        have hcur : (currentToken tokens idx).kind ≠ .endOfFile := by
          simpa [parserIsAtEnd] using hend
        obtain ⟨v, j, hj, hij, hEj, hstrict⟩ :=
          parseDeclaration_suff tokens f idx hEof (by omega)
        rw [hj]
        have hj2 : idx < j := hstrict hcur
        obtain ⟨rest, j2, hj2r⟩ := ih f (Nat.lt_succ_self f) j hEj (by omega)
        cases v with
        | none =>
            dsimp only
            rw [hj2r]
            exact ⟨rest, j2, rfl⟩
        | some s =>
            dsimp only
            rw [hj2r]
            exact ⟨s :: rest, j2, rfl⟩

/-- C9: for every token list whose last element is the `EndOfFile`
token, `parse` terminates — the fuel `yatayParse` runs on is never
exhausted, and a statement list is returned. -/
theorem parseTerminates (tokens : List YatayToken) (h1 : tokens ≠ [])
    (h2 : (tokens.getLast h1).kind = .endOfFile) :
    ∃ statements j, yatayParse tokens = .ok statements j := by
  have hlen : 0 < tokens.length := List.length_pos.mpr h1
  have hEof : EofAhead tokens 0 := by
    refine ⟨tokens.length - 1, by omega, by omega, ?_⟩
    rw [List.getD_eq_getElem _ _ (by omega)]
    rw [List.getLast_eq_getElem] at h2
    exact h2
  unfold yatayParse parserFuel
  exact declLoop_suff tokens (8 * tokens.length + 16) 0 hEof (by omega)

/-- An `EndOfFile` token (used by concrete witnesses). -/
def endToken : YatayToken := ⟨.endOfFile, "", .nullLiteral, 1⟩

/-- Witness for C9's theorem at a concrete input: the token list of the
empty program. -/
theorem parseTerminatesWitness :
    ([endToken] ≠ ([] : List YatayToken))
    ∧ ∃ statements j, yatayParse [endToken] = .ok statements j :=
  ⟨by decide, parseTerminates [endToken] (by decide) (by decide)⟩

/-- C3: after a parse error inside a declaration, `parseDeclaration`
catches it, discards tokens until the first position (from the
post-error advance on) where the previously consumed token was `.`, the
current token is one of the statement-starter keywords `clase`,
`definir`, `devolver`, `mientras`, `repetir`, `si`, or the `EndOfFile`
token is reached; the declaration yields `null` (nothing is appended to
the statement list), and the parse loop resumes from the synchronized
position. -/
theorem parseErrorSynchronizes (tokens : List YatayToken) (fuel idx : Nat)
    (t : YatayToken) (m : String) (i : Nat)
    (hEof : EofAhead tokens idx)
    (hcur : (currentToken tokens idx).kind ≠ .endOfFile)
    (hb : 8 * (tokens.length - idx) + 11 ≤ fuel)
    (herr : parseDeclarationCore tokens fuel idx = .err t m i) :
    ∃ j, parseDeclaration tokens (fuel + 1) idx = .ok none j
      ∧ SyncStop tokens j
      ∧ (∀ k, advanceIdx tokens i ≤ k → k < j → ¬ SyncStop tokens k)
      ∧ declLoop tokens (fuel + 2) idx = declLoop tokens (fuel + 1) j := by
  have hlen := hEof.lt_length
  have hspec := parseDeclarationCore_suff tokens fuel idx hEof hb
  rw [herr] at hspec
  simp only [ParseRes.Advances] at hspec
  obtain ⟨j, hj, hij, hEj, hstop, hmin⟩ :=
    synchronize_spec tokens fuel i hspec.2 (by omega)
  have hdecl : parseDeclaration tokens (fuel + 1) idx = .ok none j := by
    simp only [parseDeclaration]
    rw [herr]
    dsimp only
    rw [hj]
  have hend : ¬ parserIsAtEnd tokens idx = true := by
    simpa [parserIsAtEnd] using hcur
  refine ⟨j, hdecl, hstop, hmin, ?_⟩
  simp only [declLoop]
  rw [if_neg hend, hdecl]

/-- A `1` number token (used by concrete witnesses). -/
def numberOneToken : YatayToken := ⟨.number, "1", .numLiteral 1, 1⟩

/-- A `definir` keyword token (used by concrete witnesses). -/
def definirToken : YatayToken := ⟨.keywordDefinir, "definir", .nullLiteral, 1⟩

/-- The token list of the malformed program `1 definir` (a statement
missing its `.`, followed by a statement-starter keyword). -/
def demoTokens : List YatayToken := [numberOneToken, definirToken, endToken]

/-- Witness for C3's theorem at a concrete input: parsing `1 definir`
errors at `definir` and synchronizes. -/
theorem parseErrorSynchronizesWitness :
    (EofAhead demoTokens 0
      ∧ (currentToken demoTokens 0).kind ≠ .endOfFile
      ∧ 8 * (demoTokens.length - 0) + 11 ≤ 35
      ∧ parseDeclarationCore demoTokens 35 0 = .err definirToken expectDotMessage 1)
    ∧ (∃ j, parseDeclaration demoTokens (35 + 1) 0 = .ok none j
        ∧ SyncStop demoTokens j
        ∧ (∀ k, advanceIdx demoTokens 1 ≤ k → k < j → ¬ SyncStop demoTokens k)
        ∧ declLoop demoTokens (35 + 2) 0 = declLoop demoTokens (35 + 1) j) :=
  ⟨⟨by decide, by decide, by decide, by decide⟩,
    parseErrorSynchronizes demoTokens 35 0 definirToken expectDotMessage 1
      (by decide) (by decide) (by decide) (by decide)⟩
